import Mathlib

/-!
Verification of the AgentSwarm dashboard monitoring core (`dashboard.py`).

This file gives a shallow embedding of the planner-tree state engine
(`PlannerTreeState`), the dashboard state engine (`DashboardState.ingest`,
`adjust_visible_levels`, the clamping part of `snap`) and the terminal
escape-sequence decoder (`KeyPoller.poll`, SGR and X10 mouse reports), and
proves or refutes the frozen claims about them.

Modelling conventions:
* Python dicts become association lists over `String` keys.  Python dict
  semantics are preserved: lookup finds the first (unique) matching key,
  assignment updates in place or appends, `setdefault` only inserts when the
  key is absent.
* Python floats (the progress arithmetic and metric counters) are modelled
  with exact rationals `ℚ`; the progress table values 0.1/0.25/0.6/1.0 become
  the exact rationals 1/10, 1/4, 3/5, 1.
* Dynamically typed JSON payload values become the inductive `Val`
  (string / int / rational / bool / null) with Python truthiness and `str`
  coercion.  Ids are modelled as strings (the event schema declares the id
  fields as strings); a non-string id field is coerced through its string
  form.
* The recursive Python functions (`ensure`'s parent recursion, the BFS depth
  map, the memoized progress walk) are given an explicit fuel argument.
  The chosen fuel is sufficient for every input on which the Python code
  terminates; on inputs where Python would recurse forever (parent cycles,
  which the code never checks for) the fueled version simply stops.
* Wall-clock formatting (`datetime.fromtimestamp(...).strftime`) is I/O and
  is passed in as an opaque formatting function argument.
-/

namespace S2P

/-! # Definitions -/

def alookup {α : Type} : List (String × α) → String → Option α
  | [], _ => none
  | (k, v) :: rest, key => if k = key then some v else alookup rest key

def ainsert {α : Type} : List (String × α) → String → α → List (String × α)
  | [], key, val => [(key, val)]
  | (k, v) :: rest, key, val =>
      if k = key then (k, val) :: rest else (k, v) :: ainsert rest key val

def asetd {α : Type} (l : List (String × α)) (key : String) (val : α) :
    List (String × α) :=
  match alookup l key with
  | some _ => l
  | none => l ++ [(key, val)]

def listRemove : List String → String → List String
  | [], _ => []
  | x :: xs, y => if x = y then xs else x :: listRemove xs y

structure PlannerTreeState where
  parent : List (String × Option String)
  children : List (String × List String)
  status : List (String × String)
  role : List (String × String)
  order : List (String × Nat)
  counter : Nat
deriving DecidableEq, Repr

namespace PlannerTreeState

def ROOT_ID : String := "root-planner"

def init : PlannerTreeState :=
  { parent := [(ROOT_ID, none)]
    children := [(ROOT_ID, [])]
    status := [(ROOT_ID, "running")]
    role := [(ROOT_ID, "root-planner")]
    order := [(ROOT_ID, 0)]
    counter := 1 }

def inferParentId (taskId : String) : Option String :=
  let r := taskId.data.reverse
  let ds := r.takeWhile (fun c => c.isDigit)
  let rest := r.drop ds.length
  if ds.isEmpty then none
  else if rest.take 5 = ['-', 'b', 'u', 's', '-'] then
    some (String.mk ((rest.drop 5).reverse))
  else none

def orRootStr (o : Option String) : String :=
  match o with
  | some s => if s = "" then ROOT_ID else s
  | none => ROOT_ID

def pget (t : PlannerTreeState) (k : String) : Option String :=
  match alookup t.parent k with
  | some v => v
  | none => none

def normParent (nodeId : String) (parentId0 : Option String) : Option String :=
  if nodeId = ROOT_ID then none
  else
    match parentId0 with
    | none => some (orRootStr (inferParentId nodeId))
    | some p => some p

def roleUpdate (t : PlannerTreeState) (nodeId : String) (role : Option String) :
    List (String × String) :=
  match role with
  | some r => if r = "" then t.role else ainsert t.role nodeId r
  | none => t.role

def registerNode (t : PlannerTreeState) (nodeId : String)
    (parentId role : Option String) : PlannerTreeState :=
  if (alookup t.parent nodeId).isSome then
    { t with role := roleUpdate t nodeId role }
  else
    { t with
      parent := ainsert t.parent nodeId parentId
      children := asetd t.children nodeId []
      status := asetd t.status nodeId "pending"
      role := roleUpdate t nodeId role
      order := ainsert t.order nodeId t.counter
      counter := t.counter + 1 }

def appendKid (t : PlannerTreeState) (nodeId pid : String) : PlannerTreeState :=
  { t with children := (ainsert t.children pid
      (if nodeId ∈ (alookup t.children pid).getD []
       then (alookup t.children pid).getD []
       else (alookup t.children pid).getD [] ++ [nodeId])) }

def dropFromOld (t : PlannerTreeState) (nodeId : String) : PlannerTreeState :=
  match pget t nodeId with
  | some op =>
    if op ≠ "" ∧ nodeId ∈ (alookup t.children op).getD [] then
      { t with children := (ainsert t.children op
          (listRemove ((alookup t.children op).getD []) nodeId)) }
    else t
  | none => t

def linkChild (t : PlannerTreeState) (nodeId pid : String) : PlannerTreeState :=
  if pget (appendKid t nodeId pid) nodeId = some pid then appendKid t nodeId pid
  else
    { (dropFromOld (appendKid t nodeId pid) nodeId) with
      parent := (ainsert (dropFromOld (appendKid t nodeId pid) nodeId).parent
        nodeId (some pid)) }

def ensureGo : Nat → PlannerTreeState → String → Option String → Option String →
    PlannerTreeState
  | 0, t, _, _, _ => t
  | Nat.succ fuel, t, nodeId, parentId0, role =>
    if nodeId = "" then t else
    match normParent nodeId parentId0 with
    | none => registerNode t nodeId (normParent nodeId parentId0) role
    | some pid =>
      linkChild
        (if (alookup (registerNode t nodeId (normParent nodeId parentId0) role).parent
              pid).isSome
         then registerNode t nodeId (normParent nodeId parentId0) role
         else ensureGo fuel (registerNode t nodeId (normParent nodeId parentId0) role)
           pid (normParent pid none) none)
        nodeId pid

def fuelFor (nodeId : String) (parentId : Option String) : Nat :=
  nodeId.length + (match parentId with | some p => p.length | none => 0) + 3

def ensure (t : PlannerTreeState) (nodeId : String)
    (parentId role : Option String) : PlannerTreeState :=
  ensureGo (fuelFor nodeId parentId) t nodeId parentId role

def updateStatus (t : PlannerTreeState) (nodeId status : String)
    (parentId role : Option String) : PlannerTreeState :=
  let t1 := ensure t nodeId parentId role
  { t1 with status := ainsert t1.status nodeId status }

def depthBfs (t : PlannerTreeState) :
    Nat → List (String × Nat) → List String → List (String × Nat)
  | 0, d, _ => d
  | _, d, [] => d
  | Nat.succ fuel, d, cur :: q =>
    let kids := (alookup t.children cur).getD []
    let step := kids.foldl
      (fun (dq : List (String × Nat) × List String) child =>
        (ainsert dq.1 child ((alookup dq.1 cur).getD 0 + 1), dq.2 ++ [child]))
      (d, q)
    depthBfs t fuel step.1 step.2

def bfsFuel (t : PlannerTreeState) : Nat :=
  1 + (t.children.map (fun pl => pl.2.length)).sum

def depthMap (t : PlannerTreeState) : List (String × Nat) :=
  depthBfs t (bfsFuel t) [(ROOT_ID, 0)] [ROOT_ID]

def terminalStatuses : List String := ["complete", "failed", "cancelled"]

def kidsOf (t : PlannerTreeState) (n : String) : List String :=
  (alookup t.children n).getD []

def statusOf (t : PlannerTreeState) (n : String) : String :=
  (alookup t.status n).getD "pending"

def statusProgress (st : String) : ℚ :=
  if st = "idle" then 0
  else if st = "pending" then 1/10
  else if st = "assigned" then 1/4
  else if st = "running" then 3/5
  else if st = "complete" then 1
  else if st = "failed" then 1
  else if st = "cancelled" then 1
  else 0

def clamp01 (p : ℚ) : ℚ := max 0 (min 1 p)

def calcGo (t : PlannerTreeState) : Nat → List (String × ℚ) → String →
    List (String × ℚ) × ℚ
  | 0, memo, n => (memo, (alookup memo n).getD 0)
  | Nat.succ fuel, memo, n =>
    match alookup memo n with
    | some p => (memo, p)
    | none =>
      let kids := kidsOf t n
      let st := statusOf t n
      if st ∈ terminalStatuses then
        (ainsert memo n (clamp01 1), clamp01 1)
      else if kids.isEmpty then
        (ainsert memo n (clamp01 (statusProgress st)), clamp01 (statusProgress st))
      else
        let r := kids.foldl
          (fun acc k =>
            let r1 := calcGo t fuel acc.1 k
            (r1.1, acc.2 ++ [r1.2]))
          (memo, [])
        let p := r.2.sum / (max r.2.length 1 : ℚ)
        (ainsert r.1 n (clamp01 p), clamp01 p)

def calcList (t : PlannerTreeState) (fuel : Nat) :
    List (String × ℚ) → List String → List (String × ℚ) × List ℚ
  | memo, [] => (memo, [])
  | memo, k :: ks =>
    let r1 := calcGo t fuel memo k
    let r2 := calcList t fuel r1.1 ks
    (r2.1, r1.2 :: r2.2)

def calcFuel (t : PlannerTreeState) : Nat :=
  t.parent.length + t.children.length + 1

def progressMap (t : PlannerTreeState) : List (String × ℚ) :=
  (calcGo t (calcFuel t) [] ROOT_ID).1

def insertByKey (key : String → Nat) (x : String) : List String → List String
  | [] => [x]
  | y :: ys => if key x ≤ key y then x :: y :: ys else y :: insertByKey key x ys

def sortByKey (key : String → Nat) : List String → List String
  | [] => []
  | x :: xs => insertByKey key x (sortByKey key xs)

structure NodeView where
  id : String
  depth : Nat
  status : String
  progress : ℚ
  children : List String
  role : String
deriving DecidableEq, Repr

structure TreeSnap where
  root : String
  nodes : List (String × NodeView)
  maxDepth : Nat
deriving DecidableEq, Repr

def nodeViewOf (t : PlannerTreeState) (progress : List (String × ℚ))
    (nid : String) (nd : Nat) : NodeView :=
  { id := nid
    depth := nd
    status := (alookup t.status nid).getD "pending"
    progress := (alookup progress nid).getD 0
    children := sortByKey (fun x => (alookup t.order x).getD 0)
      ((alookup t.children nid).getD [])
    role :=
      (match alookup t.role nid with
       | some r => if r = "" then (if nd = 1 then "planner" else "subplanner") else r
       | none => if nd = 1 then "planner" else "subplanner") }

def snapshot (t : PlannerTreeState) : TreeSnap :=
  let depth := depthMap t
  let progress := progressMap t
  { root := ROOT_ID
    nodes := depth.map (fun p => (p.1, nodeViewOf t progress p.1 p.2))
    maxDepth := (depth.map (fun p => p.2)).foldl max 0 }

end PlannerTreeState

inductive Val where
  | s : String → Val
  | i : Int → Val
  | q : ℚ → Val
  | b : Bool → Val
  | null : Val
deriving DecidableEq, Repr

namespace Val

def truthy : Val → Bool
  | s str => str ≠ ""
  | i n => n ≠ 0
  | q r => r ≠ 0
  | b bo => bo
  | null => false

def pyStr : Val → String
  | s str => str
  | i n => toString n
  | q r => toString r
  | b true => "True"
  | b false => "False"
  | null => "None"

end Val

def pyOrV (a : Option Val) (b : Val) : Val :=
  match a with
  | some v => if v.truthy then v else b
  | none => b

structure Event where
  message : String
  level : String
  agentRole : String
  timestamp : Int
  taskId : Option Val
  data : List (String × Val)
deriving DecidableEq, Repr

namespace Event

def taskIdStr (e : Event) : String :=
  (pyOrV (alookup e.data "taskId") (pyOrV e.taskId (Val.s ""))).pyStr

def parentForEnsure (e : Event) (tid : String) : Option String :=
  let v := pyOrV (alookup e.data "parentId") (pyOrV (alookup e.data "parentTaskId") Val.null)
  if v.truthy then some v.pyStr else PlannerTreeState.inferParentId tid

def parentFromData (e : Event) : Option String :=
  let v := pyOrV (alookup e.data "parentId") (pyOrV (alookup e.data "parentTaskId") Val.null)
  if v.truthy then some v.pyStr else none

def dataStr (e : Event) (key : String) : String :=
  match alookup e.data key with
  | some v => v.pyStr
  | none => ""

def dataVal (e : Event) (key : String) : Option Val :=
  alookup e.data key

end Event

def eventNodeRole (agentRole : String) : Option String :=
  if agentRole = "subplanner" then some "subplanner"
  else if agentRole = "worker" then some "worker"
  else none

def MAX_ACTIVITY : Nat := 50

structure DashboardState where
  activeWorkers : Val
  pendingTasks : Val
  completedTasks : Val
  failedTasks : Val
  commitsPerHour : Val
  mergeSuccessRate : Val
  totalTokens : Val
  tree : PlannerTreeState
  visibleLevels : Int
  activeTab : String
  inProgressScroll : Int
  completedScroll : Int
  mergeMerged : Int
  mergeConflicts : Int
  mergeFailed : Int
  activity : List (String × String × String)
  linesAdded : Int
  iteration : Val
deriving DecidableEq, Repr

namespace DashboardState

def initial : DashboardState :=
  { activeWorkers := Val.i 0
    pendingTasks := Val.i 0
    completedTasks := Val.i 0
    failedTasks := Val.i 0
    commitsPerHour := Val.q 0
    mergeSuccessRate := Val.q 0
    totalTokens := Val.i 0
    tree := PlannerTreeState.init
    visibleLevels := 2
    activeTab := "grid"
    inProgressScroll := 0
    completedScroll := 0
    mergeMerged := 0
    mergeConflicts := 0
    mergeFailed := 0
    activity := []
    linesAdded := 0
    iteration := Val.i 0 }

def feed (st : DashboardState) (ts msg style : String) : DashboardState :=
  { st with activity := ((ts, msg, style) :: st.activity).take MAX_ACTIVITY }

def activeStatuses : List String := ["pending", "assigned", "running"]

def activeDepths (snap : PlannerTreeState.TreeSnap) : List Nat :=
  (snap.nodes.filter (fun p => p.2.status ∈ activeStatuses)).map (fun p => p.2.depth)

def activeMaxDepth (st : DashboardState) : Nat :=
  (activeDepths st.tree.snapshot).foldl max 0

def currentLevelCap (st : DashboardState) : Int :=
  max 1 ((activeMaxDepth st : Int) + 1)

def adjustVisibleLevels (st : DashboardState) (delta : Int) : DashboardState :=
  { st with visibleLevels := max 1 (min (currentLevelCap st) (st.visibleLevels + delta)) }

def adjustTreeScroll (st : DashboardState) (pane : String) (delta : Int) :
    DashboardState :=
  if pane = "in_progress" then
    { st with inProgressScroll := max 0 (st.inProgressScroll + delta) }
  else if pane = "completed" then
    { st with completedScroll := max 0 (st.completedScroll + delta) }
  else st

def snapStep (st : DashboardState) : DashboardState :=
  let cap : Int := max 1 ((activeMaxDepth st : Int) + 1)
  { st with visibleLevels := max 1 (min st.visibleLevels cap) }

def preEnsure (st : DashboardState) (e : Event) : DashboardState :=
  if e.taskIdStr ≠ "" then
    { st with tree := (st.tree.ensure e.taskIdStr (e.parentForEnsure e.taskIdStr)
        (eventNodeRole e.agentRole)) }
  else st

def tsStrOf (fmtTs : Int → String) (nowStr : String) (e : Event) : String :=
  if e.timestamp ≠ 0 then fmtTs e.timestamp else nowStr

def onMetrics (st : DashboardState) (e : Event) : DashboardState :=
  { st with
    activeWorkers := (e.dataVal "activeWorkers").getD st.activeWorkers
    pendingTasks := (e.dataVal "pendingTasks").getD st.pendingTasks
    completedTasks := (e.dataVal "completedTasks").getD st.completedTasks
    failedTasks := (e.dataVal "failedTasks").getD st.failedTasks
    commitsPerHour := (e.dataVal "commitsPerHour").getD st.commitsPerHour
    mergeSuccessRate := (e.dataVal "mergeSuccessRate").getD st.mergeSuccessRate
    totalTokens := (e.dataVal "totalTokensUsed").getD st.totalTokens }

def onTaskStatus (st : DashboardState) (e : Event) : DashboardState :=
  let taskId := (e.dataVal "taskId").getD (Val.s "")
  let newSt := (e.dataVal "to").getD (Val.s "")
  if taskId.truthy && newSt.truthy then
    { st with tree := (st.tree.updateStatus taskId.pyStr newSt.pyStr
        e.parentFromData (eventNodeRole e.agentRole)) }
  else st

def onTaskCreated (fmtTs : Int → String) (nowStr : String) (st : DashboardState)
    (e : Event) : DashboardState :=
  let taskId := (e.dataVal "taskId").getD (Val.s "")
  let desc := e.dataStr "desc"
  let st :=
    if taskId.truthy then
      { st with tree := (st.tree.updateStatus taskId.pyStr "pending"
          e.parentFromData (eventNodeRole e.agentRole)) }
    else st
  st.feed (tsStrOf fmtTs nowStr e)
    ("  + " ++ taskId.pyStr ++ "  " ++ desc.take 52) "cyan"

def onTaskCompleted (fmtTs : Int → String) (nowStr : String)
    (st : DashboardState) (e : Event) : DashboardState :=
  let taskId := (e.dataVal "taskId").getD (Val.s "")
  let status := (e.dataVal "status").getD (Val.s "")
  let final := if status = Val.s "complete" then "complete" else "failed"
  let st :=
    if taskId.truthy then
      { st with tree := (st.tree.updateStatus taskId.pyStr final
          e.parentFromData (eventNodeRole e.agentRole)) }
    else st
  st.feed (tsStrOf fmtTs nowStr e)
    ("  " ++ taskId.pyStr ++ "  " ++ status.pyStr)
    (if final = "complete" then "green" else "red")

def onDispatch (st : DashboardState) (e : Event) : DashboardState :=
  let taskId := (e.dataVal "taskId").getD (Val.s "")
  if taskId.truthy then
    { st with tree := (st.tree.updateStatus taskId.pyStr "assigned"
        e.parentFromData (eventNodeRole e.agentRole)) }
  else st

def onCallingLLM (st : DashboardState) (e : Event) : DashboardState :=
  let ptid := pyOrV (e.dataVal "parentTaskId") (pyOrV e.taskId Val.null)
  if ptid.truthy then
    { st with tree := (st.tree.updateStatus ptid.pyStr "running"
        (PlannerTreeState.inferParentId ptid.pyStr) (some "subplanner")) }
  else st

def onSubtaskRecursing (st : DashboardState) (e : Event) : DashboardState :=
  let sid := (e.dataVal "subtaskId").getD (Val.s "")
  if sid.truthy then
    let pid :=
      let v := pyOrV (e.dataVal "parentId") (pyOrV (e.dataVal "parentTaskId") Val.null)
      if v.truthy then some v.pyStr else PlannerTreeState.inferParentId sid.pyStr
    { st with tree := st.tree.updateStatus sid.pyStr "running" pid (some "subplanner") }
  else st

def onSubtaskCompleted (st : DashboardState) (e : Event) : DashboardState :=
  let sid := (e.dataVal "subtaskId").getD (Val.s "")
  if sid.truthy then
    let pid :=
      let v := pyOrV (e.dataVal "parentId") (pyOrV (e.dataVal "parentTaskId") Val.null)
      if v.truthy then some v.pyStr else PlannerTreeState.inferParentId sid.pyStr
    let status := (e.dataVal "status").getD (Val.s "")
    let final := if status = Val.s "complete" then "complete" else "failed"
    { st with tree := st.tree.updateStatus sid.pyStr final pid none }
  else st

def onMergeResult (fmtTs : Int → String) (nowStr : String)
    (st : DashboardState) (e : Event) : DashboardState :=
  let status := (e.dataVal "status").getD (Val.s "")
  let branch := (e.dataStr "branch").take 30
  if status = Val.s "merged" then
    ({ st with mergeMerged := st.mergeMerged + 1 } : DashboardState).feed
      (tsStrOf fmtTs nowStr e) ("  >> merged  " ++ branch) "green"
  else if status = Val.s "conflict" then
    ({ st with mergeConflicts := st.mergeConflicts + 1 } : DashboardState).feed
      (tsStrOf fmtTs nowStr e) ("  !! conflict  " ++ branch) "yellow"
  else
    ({ st with mergeFailed := st.mergeFailed + 1 } : DashboardState).feed
      (tsStrOf fmtTs nowStr e) ("  xx merge fail  " ++ branch) "red"

def onIterationComplete (fmtTs : Int → String) (nowStr : String)
    (st : DashboardState) (e : Event) : DashboardState :=
  let st1 := { st with
    iteration := (e.dataVal "iteration").getD st.iteration
    activeWorkers := (e.dataVal "activeWorkers").getD st.activeWorkers
    completedTasks := (e.dataVal "completedTasks").getD st.completedTasks }
  let n := (e.dataVal "tasks").getD (Val.i 0)
  st1.feed (tsStrOf fmtTs nowStr e)
    ("  -- iteration " ++ st1.iteration.pyStr ++ "  (" ++ n.pyStr ++ " tasks)")
    "blue"

def onReconciler (fmtTs : Int → String) (nowStr : String)
    (st : DashboardState) (e : Event) : DashboardState :=
  let c := (e.dataVal "count").getD (Val.i 0)
  st.feed (tsStrOf fmtTs nowStr e)
    ("  reconciler  " ++ c.pyStr ++ " fix tasks") "yellow"

def onSweep (fmtTs : Int → String) (nowStr : String)
    (st : DashboardState) (e : Event) : DashboardState :=
  let ok := (pyOrV (e.dataVal "buildOk") Val.null).truthy &&
    (pyOrV (e.dataVal "testsOk") Val.null).truthy
  st.feed (tsStrOf fmtTs nowStr e)
    ("  sweep: " ++ (if ok then "all green" else "NEEDS FIX"))
    (if ok then "green" else "red")

def onWorkerTimeout (fmtTs : Int → String) (nowStr : String)
    (st : DashboardState) (e : Event) : DashboardState :=
  let tid := (e.dataVal "taskId").getD (Val.s "")
  let st :=
    if tid.truthy then
      { st with tree := (st.tree.updateStatus tid.pyStr "failed"
          e.parentFromData (eventNodeRole e.agentRole)) }
    else st
  st.feed (tsStrOf fmtTs nowStr e) ("  TIMEOUT  " ++ tid.pyStr) "bold red"

def onError (fmtTs : Int → String) (nowStr : String)
    (st : DashboardState) (e : Event) : DashboardState :=
  st.feed (tsStrOf fmtTs nowStr e) ("  ERR  " ++ e.message.take 60) "bold red"

def route (fmtTs : Int → String) (nowStr : String) (st : DashboardState)
    (e : Event) : DashboardState :=
  if e.message = "Metrics" then onMetrics st e
  else if e.message = "Task status" then onTaskStatus st e
  else if e.message = "Task created" then onTaskCreated fmtTs nowStr st e
  else if e.message = "Task completed" then onTaskCompleted fmtTs nowStr st e
  else if e.message = "Dispatching task to ephemeral sandbox" then onDispatch st e
  else if e.message = "Calling LLM for task decomposition" then onCallingLLM st e
  else if e.message = "Subtask still complex — recursing" then onSubtaskRecursing st e
  else if e.message = "Subtask completed by worker" then onSubtaskCompleted st e
  else if e.message = "Merge result" then onMergeResult fmtTs nowStr st e
  else if e.message = "Iteration complete" then onIterationComplete fmtTs nowStr st e
  else if e.message = "Reconciler created fix tasks" then onReconciler fmtTs nowStr st e
  else if e.message = "Sweep check results" then onSweep fmtTs nowStr st e
  else if e.message = "Worker timed out" then onWorkerTimeout fmtTs nowStr st e
  else if e.level = "error" then onError fmtTs nowStr st e
  else st

def ingest (fmtTs : Int → String) (nowStr : String) (st : DashboardState)
    (e : Event) : DashboardState :=
  route fmtTs nowStr (preEnsure st e) e

def recognizedMessages : List String :=
  ["Metrics", "Task status", "Task created", "Task completed",
   "Dispatching task to ephemeral sandbox", "Calling LLM for task decomposition",
   "Subtask still complex — recursing", "Subtask completed by worker",
   "Merge result", "Iteration complete", "Reconciler created fix tasks",
   "Sweep check results", "Worker timed out"]

end DashboardState

inductive DOp where
  | adjust : Int → DOp
  | ingestE : Event → DOp
  | snapOp : DOp
deriving DecidableEq, Repr

def runD (fmtTs : Int → String) (nowStr : String) :
    DashboardState → List DOp → DashboardState
  | st, [] => st
  | st, op :: ops =>
    let st' :=
      match op with
      | DOp.adjust d => st.adjustVisibleLevels d
      | DOp.ingestE e => DashboardState.ingest fmtTs nowStr st e
      | DOp.snapOp => st.snapStep
    runD fmtTs nowStr st' ops

def splitSemis : List Char → List (List Char)
  | [] => [[]]
  | c :: cs =>
    let r := splitSemis cs
    if c = ';' then [] :: r
    else
      match r with
      | h :: t => (c :: h) :: t
      | [] => [[c]]

def isDigitB (c : Char) : Bool := 48 ≤ c.toNat && c.toNat ≤ 57

def digitsVal (cs : List Char) : Option Nat :=
  if cs.isEmpty ∨ ¬ cs.all isDigitB then none
  else some (cs.foldl (fun a c => a * 10 + (c.toNat - 48)) 0)

def pyInt : List Char → Option Int
  | [] => none
  | c :: rest =>
    if c = '-' then (digitsVal rest).map (fun n => -(n : Int))
    else if c = '+' then (digitsVal rest).map (fun n => (n : Int))
    else (digitsVal (c :: rest)).map (fun n => (n : Int))

def pyBitSet (x : Int) (k : Nat) : Bool := (x.ediv (2 ^ k)).emod 2 ≠ 0

def escArrowDecode (seq : List Char) : String :=
  if seq.getLast? = some 'A' then "ESC"
  else if seq.getLast? = some 'B' then "ESC"
  else if seq.getLast? = some 'C' then "RIGHT"
  else if seq.getLast? = some 'D' then "LEFT"
  else "ESC"

def escX10Decode (seq : List Char) : String :=
  if seq.take 2 = ['[', 'M'] ∧ 5 ≤ seq.length then
    let cb : Int := (seq.getD 2 (Char.ofNat 0)).toNat
    let mx : Int := max 1 ((seq.getD 3 (Char.ofNat 0)).toNat - 32)
    let my : Int := max 1 ((seq.getD 4 (Char.ofNat 0)).toNat - 32)
    let btn : Int := cb - 32
    if pyBitSet btn 6 ∧ ¬ pyBitSet btn 0 then
      "MWHEEL_UP:" ++ toString mx ++ ":" ++ toString my
    else if pyBitSet btn 6 ∧ pyBitSet btn 0 then
      "MWHEEL_DOWN:" ++ toString mx ++ ":" ++ toString my
    else escArrowDecode seq
  else escArrowDecode seq

def escDecode (seq : List Char) : String :=
  if seq.take 2 = ['[', '<'] ∧ (seq.getLast? = some 'M' ∨ seq.getLast? = some 'm') then
    let body := ((seq.drop 2).dropLast).filter (fun c => c.toNat < 128)
    let parts := splitSemis body
    match parts with
    | [s0, s1, s2] =>
      let nums : Int × Int × Int :=
        match pyInt s0, pyInt s1, pyInt s2 with
        | some b0, some x0, some y0 => (b0, x0, y0)
        | _, _, _ => (-1, 0, 0)
      let button := nums.1
      let mx := nums.2.1
      let my := nums.2.2
      if button = 64 ∨ button = 96 then
        "MWHEEL_UP:" ++ toString mx ++ ":" ++ toString my
      else if button = 65 ∨ button = 97 then
        "MWHEEL_DOWN:" ++ toString mx ++ ":" ++ toString my
      else if pyBitSet button 6 ∧ ¬ pyBitSet button 0 then
        "MWHEEL_UP:" ++ toString mx ++ ":" ++ toString my
      else if pyBitSet button 6 ∧ pyBitSet button 0 then
        "MWHEEL_DOWN:" ++ toString mx ++ ":" ++ toString my
      else escX10Decode seq
    | _ => escX10Decode seq
  else escX10Decode seq

namespace PlannerTreeState

def TermInv (t : PlannerTreeState) (M : List (String × ℚ)) : Prop :=
  ∀ n v, alookup M n = some v → statusOf t n ∈ terminalStatuses → v = 1

def RoleOK (t : PlannerTreeState) (n : String) (role : Option String) : Prop :=
  match role with
  | some rr => rr = "" ∨ alookup t.role n = some rr
  | none => True

structure TreeInv (t : PlannerTreeState) : Prop where
  childParent : ∀ q x, x ∈ (alookup t.children q).getD [] → pget t x = some q
  nodup : ∀ q, ((alookup t.children q).getD []).Nodup
  rootNone : ∀ x ov, alookup t.parent x = some ov → ov = none → x = ROOT_ID
  valNE : ∀ x v, alookup t.parent x = some (some v) → v ≠ ""
  rootNotKid : ∀ q, ROOT_ID ∉ (alookup t.children q).getD []

end PlannerTreeState

inductive TOp where
  | ens : String → Option String → Option String → TOp
  | upd : String → String → Option String → Option String → TOp
deriving DecidableEq, Repr

def TOp.parentArg : TOp → Option String
  | TOp.ens _ p _ => p
  | TOp.upd _ _ p _ => p

def TOp.apply (t : PlannerTreeState) : TOp → PlannerTreeState
  | TOp.ens n p r => t.ensure n p r
  | TOp.upd n s p r => t.updateStatus n s p r

def runT : PlannerTreeState → List TOp → PlannerTreeState
  | t, [] => t
  | t, op :: ops => runT (TOp.apply t op) ops

namespace PlannerTreeState

abbrev ChildRankedL (t : PlannerTreeState) (rank : String → Nat) : Prop :=
  ∀ pl ∈ t.children, ∀ k ∈ pl.2, rank k < rank pl.1

abbrev UniqueKidL (t : PlannerTreeState) : Prop :=
  ∀ pl ∈ t.children, ∀ ql ∈ t.children, ∀ k, k ∈ pl.2 → k ∈ ql.2 →
    pl.1 = ql.1

abbrev RootNotKidL (t : PlannerTreeState) : Prop :=
  ∀ pl ∈ t.children, ROOT_ID ∉ pl.2

def MGood (t : PlannerTreeState) (M : List (String × ℚ)) (n : String)
    (v : ℚ) : Prop :=
  0 ≤ v ∧ v ≤ 1 ∧
  (if statusOf t n ∈ terminalStatuses then v = 1
   else if (kidsOf t n).isEmpty then v = clamp01 (statusProgress (statusOf t n))
   else ((∀ k ∈ kidsOf t n, (alookup M k).isSome) ∧
     v = ((kidsOf t n).map (fun k => (alookup M k).getD 0)).sum /
       ((kidsOf t n).length : ℚ)))

def MInv (t : PlannerTreeState) (M : List (String × ℚ)) : Prop :=
  ∀ n v, alookup M n = some v → MGood t M n v

end PlannerTreeState

/-! # Theorems -/

theorem alookup_ainsert {α : Type} (l : List (String × α)) (k : String) (v : α)
    (k' : String) :
    alookup (ainsert l k v) k' = if k = k' then some v else alookup l k' := by
  induction l with
  | nil => simp [ainsert, alookup]
  | cons hd tl ih =>
    obtain ⟨hk, hv⟩ := hd
    by_cases h1 : hk = k
    · subst h1
      by_cases h2 : hk = k' <;> simp [ainsert, alookup, h2]
    · by_cases h2 : hk = k'
      · subst h2
        have : ¬ k = hk := fun h => h1 h.symm
        simp [ainsert, alookup, h1, this]
      · simp [ainsert, alookup, h1, h2, ih]

theorem alookup_append {α : Type} (l1 l2 : List (String × α)) (k : String) :
    alookup (l1 ++ l2) k =
      match alookup l1 k with
      | some v => some v
      | none => alookup l2 k := by
  induction l1 with
  | nil => simp [alookup]
  | cons hd tl ih =>
    obtain ⟨hk, hv⟩ := hd
    by_cases h1 : hk = k <;> simp [alookup, h1, ih]

theorem alookup_asetd {α : Type} (l : List (String × α)) (k : String) (v : α)
    (k' : String) :
    alookup (asetd l k v) k' =
      if (alookup l k).isSome then alookup l k'
      else if k = k' then some v else alookup l k' := by
  unfold asetd
  cases hl : alookup l k with
  | some w => simp
  | none =>
    simp only [Option.isSome_none, Bool.false_eq_true, if_false]
    rw [alookup_append]
    cases hl' : alookup l k' with
    | some w =>
      by_cases h2 : k = k'
      · subst h2; rw [hl] at hl'; simp at hl'
      · simp [h2]
    | none =>
      by_cases h2 : k = k' <;> simp [alookup, h2]

theorem ainsert_self {α : Type} (l : List (String × α)) (k : String) (v : α)
    (h : alookup l k = some v) : ainsert l k v = l := by
  induction l with
  | nil => simp [alookup] at h
  | cons hd tl ih =>
    obtain ⟨hk, hv⟩ := hd
    by_cases h1 : hk = k
    · subst h1
      simp [alookup] at h
      simp [ainsert, h]
    · simp [alookup, h1] at h
      simp [ainsert, h1, ih h]

theorem asetd_some {α : Type} (l : List (String × α)) (k : String) (v : α)
    (h : (alookup l k).isSome) : asetd l k v = l := by
  unfold asetd
  cases hl : alookup l k with
  | some w => rfl
  | none => rw [hl] at h; simp at h

namespace PlannerTreeState

theorem calc_fold_eq (t : PlannerTreeState) (fuel : Nat) :
    ∀ (ks : List String) (memo : List (String × ℚ)) (acc : List ℚ),
      ks.foldl
        (fun acc k =>
          let r1 := calcGo t fuel acc.1 k
          (r1.1, acc.2 ++ [r1.2]))
        (memo, acc)
      = ((calcList t fuel memo ks).1, acc ++ (calcList t fuel memo ks).2) := by
  intro ks
  induction ks with
  | nil => intro memo acc; simp [calcList]
  | cons k ks ih =>
    intro memo acc
    simp only [List.foldl, calcList]
    rw [ih]
    simp

theorem calcGo_succ_fresh (t : PlannerTreeState) (fuel : Nat)
    (memo : List (String × ℚ)) (n : String) (hm : alookup memo n = none) :
    calcGo t (fuel + 1) memo n =
      (if statusOf t n ∈ terminalStatuses then
        (ainsert memo n (clamp01 1), clamp01 1)
      else if (kidsOf t n).isEmpty then
        (ainsert memo n (clamp01 (statusProgress (statusOf t n))),
          clamp01 (statusProgress (statusOf t n)))
      else
        let r := calcList t fuel memo (kidsOf t n)
        let p := r.2.sum / (max r.2.length 1 : ℚ)
        (ainsert r.1 n (clamp01 p), clamp01 p)) := by
  simp only [calcGo, hm]
  by_cases hterm : statusOf t n ∈ terminalStatuses
  · simp [hterm]
  · by_cases hkids : (kidsOf t n).isEmpty
    · simp [hterm, hkids]
    · simp only [hterm, hkids, if_false]
      rw [calc_fold_eq]
      simp

end PlannerTreeState

theorem alookup_mapKey {α β : Type} (l : List (String × α)) (f : String → α → β)
    (k : String) :
    alookup (l.map (fun p => (p.1, f p.1 p.2))) k = (alookup l k).map (f k) := by
  induction l with
  | nil => simp [alookup]
  | cons hd tl ih =>
    obtain ⟨hk, hv⟩ := hd
    by_cases h : hk = k <;> simp [alookup, h, ih]

theorem alookup_mem {α : Type} {l : List (String × α)} {k : String} {v : α}
    (h : alookup l k = some v) : (k, v) ∈ l := by
  induction l with
  | nil => simp [alookup] at h
  | cons hd tl ih =>
    obtain ⟨hk, hv⟩ := hd
    by_cases h1 : hk = k
    · subst h1
      simp [alookup] at h
      simp [h]
    · simp [alookup, h1] at h
      simp [ih h]

namespace PlannerTreeState

theorem snapshot_nodes_lookup (t : PlannerTreeState) (n : String) :
    alookup t.snapshot.nodes n =
      (alookup (depthMap t) n).map (fun d => nodeViewOf t (progressMap t) n d) := by
  show alookup ((depthMap t).map
    (fun p => (p.1, nodeViewOf t (progressMap t) p.1 p.2))) n = _
  exact alookup_mapKey (depthMap t) (fun k d => nodeViewOf t (progressMap t) k d) n

theorem clamp01_one : clamp01 1 = 1 := by norm_num [clamp01]

theorem calc_termInv (t : PlannerTreeState) :
    ∀ fuel memo n, TermInv t memo → TermInv t (calcGo t fuel memo n).1 := by
  intro fuel
  induction fuel with
  | zero => intro memo n h; simpa [calcGo] using h
  | succ fuel ih =>
    have ihList : ∀ ks memo, TermInv t memo → TermInv t (calcList t fuel memo ks).1 := by
      intro ks
      induction ks with
      | nil => intro memo h; simpa [calcList] using h
      | cons k ks ihk =>
        intro memo h
        simp only [calcList]
        exact ihk _ (ih memo k h)
    intro memo n h
    cases hm : alookup memo n with
    | some p =>
      simp only [calcGo, hm]
      exact h
    | none =>
      rw [calcGo_succ_fresh t fuel memo n hm]
      by_cases hterm : statusOf t n ∈ terminalStatuses
      · simp only [if_pos hterm]
        intro k v hk hkterm
        rw [alookup_ainsert] at hk
        by_cases hkn : n = k
        · rw [if_pos hkn] at hk
          cases hk
          exact clamp01_one
        · rw [if_neg hkn] at hk
          exact h k v hk hkterm
      · simp only [if_neg hterm]
        by_cases hkids : (kidsOf t n).isEmpty
        · simp only [if_pos hkids]
          intro k v hk hkterm
          rw [alookup_ainsert] at hk
          by_cases hkn : n = k
          · subst hkn; exact absurd hkterm hterm
          · rw [if_neg hkn] at hk
            exact h k v hk hkterm
        · simp only [if_neg hkids]
          intro k v hk hkterm
          rw [alookup_ainsert] at hk
          by_cases hkn : n = k
          · subst hkn; exact absurd hkterm hterm
          · rw [if_neg hkn] at hk
            exact ihList (kidsOf t n) memo h k v hk hkterm

theorem progressMap_termInv (t : PlannerTreeState) : TermInv t (progressMap t) :=
  calc_termInv t (calcFuel t) [] ROOT_ID (by intro n v h; simp [alookup] at h)

end PlannerTreeState

theorem c1_counterexample :
    let t := (PlannerTreeState.init.updateStatus "a" "complete" none none).updateStatus
      "b" "complete" (some "a") none
    alookup t.snapshot.nodes "b" =
      some { id := "b", depth := 2, status := "complete", progress := 0,
             children := [], role := "subplanner" } ∧
    ("complete" ∈ PlannerTreeState.terminalStatuses ∧ (0 : ℚ) ≠ 1) := by
  refine ⟨by with_unfolding_all decide, by decide, by norm_num⟩

theorem c1_terminal_progress_amended (t : PlannerTreeState) (n : String)
    (v : PlannerTreeState.NodeView)
    (hn : alookup t.snapshot.nodes n = some v)
    (hterm : v.status ∈ PlannerTreeState.terminalStatuses)
    (hmem : (alookup (PlannerTreeState.progressMap t) n).isSome) :
    v.progress = 1 := by
  rw [PlannerTreeState.snapshot_nodes_lookup] at hn
  cases hd : alookup (PlannerTreeState.depthMap t) n with
  | none => rw [hd] at hn; simp at hn
  | some d =>
    rw [hd, Option.map_some'] at hn
    cases hn
    cases hv : alookup (PlannerTreeState.progressMap t) n with
    | none => rw [hv] at hmem; simp at hmem
    | some w =>
      have hst : PlannerTreeState.statusOf t n ∈ PlannerTreeState.terminalStatuses := hterm
      have := PlannerTreeState.progressMap_termInv t n w hv hst
      simp [PlannerTreeState.nodeViewOf, hv, this]

theorem c1_terminal_progress_amended_witness :
    let t := PlannerTreeState.init.updateStatus "a" "complete" none none
    ∃ v : PlannerTreeState.NodeView,
      alookup t.snapshot.nodes "a" = some v ∧ v.progress = 1 := by
  intro t
  refine ⟨_, rfl, ?_⟩
  exact c1_terminal_progress_amended t "a" _ rfl (by decide)
    (by with_unfolding_all decide)

theorem c9_infer_parent_autocreate :
    PlannerTreeState.inferParentId "t1-sub-1" = some "t1" ∧
    (let t := PlannerTreeState.init.ensure "t1-sub-1" none none
     alookup t.parent "t1-sub-1" = some (some "t1") ∧
     alookup t.parent "t1" = some (some PlannerTreeState.ROOT_ID) ∧
     alookup t.status "t1" = some "pending" ∧
     alookup t.snapshot.nodes "t1-sub-1" =
       some { id := "t1-sub-1", depth := 2, status := "pending",
              progress := 1/10, children := [], role := "subplanner" } ∧
     alookup t.snapshot.nodes "t1" =
       some { id := "t1", depth := 1, status := "pending", progress := 1/10,
              children := ["t1-sub-1"], role := "planner" } ∧
     alookup t.snapshot.nodes PlannerTreeState.ROOT_ID =
       some { id := PlannerTreeState.ROOT_ID, depth := 0, status := "running",
              progress := 1/10, children := ["t1"], role := "root-planner" }) := by
  refine ⟨by decide, by decide, by decide, by decide, ?_, ?_, ?_⟩ <;>
    with_unfolding_all decide

namespace DashboardState

theorem preEnsure_visibleLevels (st : DashboardState) (e : Event) :
    (preEnsure st e).visibleLevels = st.visibleLevels := by
  unfold preEnsure
  split <;> rfl

theorem onMetrics_visibleLevels (st : DashboardState) (e : Event) :
    (onMetrics st e).visibleLevels = st.visibleLevels := rfl

theorem onTaskStatus_visibleLevels (st : DashboardState) (e : Event) :
    (onTaskStatus st e).visibleLevels = st.visibleLevels := by
  simp only [onTaskStatus]
  split <;> rfl

theorem onTaskCreated_visibleLevels (fmtTs : Int → String) (nowStr : String)
    (st : DashboardState) (e : Event) :
    (onTaskCreated fmtTs nowStr st e).visibleLevels = st.visibleLevels := by
  simp only [onTaskCreated, feed]
  split <;> rfl

theorem onTaskCompleted_visibleLevels (fmtTs : Int → String) (nowStr : String)
    (st : DashboardState) (e : Event) :
    (onTaskCompleted fmtTs nowStr st e).visibleLevels = st.visibleLevels := by
  simp only [onTaskCompleted, feed]
  split <;> rfl

theorem onDispatch_visibleLevels (st : DashboardState) (e : Event) :
    (onDispatch st e).visibleLevels = st.visibleLevels := by
  simp only [onDispatch]
  split <;> rfl

theorem onCallingLLM_visibleLevels (st : DashboardState) (e : Event) :
    (onCallingLLM st e).visibleLevels = st.visibleLevels := by
  simp only [onCallingLLM]
  split <;> rfl

theorem onSubtaskRecursing_visibleLevels (st : DashboardState) (e : Event) :
    (onSubtaskRecursing st e).visibleLevels = st.visibleLevels := by
  simp only [onSubtaskRecursing]
  split <;> rfl

theorem onSubtaskCompleted_visibleLevels (st : DashboardState) (e : Event) :
    (onSubtaskCompleted st e).visibleLevels = st.visibleLevels := by
  simp only [onSubtaskCompleted]
  split <;> rfl

theorem onMergeResult_visibleLevels (fmtTs : Int → String) (nowStr : String)
    (st : DashboardState) (e : Event) :
    (onMergeResult fmtTs nowStr st e).visibleLevels = st.visibleLevels := by
  simp only [onMergeResult, feed]
  split <;> try rfl
  split <;> rfl

theorem onIterationComplete_visibleLevels (fmtTs : Int → String) (nowStr : String)
    (st : DashboardState) (e : Event) :
    (onIterationComplete fmtTs nowStr st e).visibleLevels = st.visibleLevels := rfl

theorem onReconciler_visibleLevels (fmtTs : Int → String) (nowStr : String)
    (st : DashboardState) (e : Event) :
    (onReconciler fmtTs nowStr st e).visibleLevels = st.visibleLevels := rfl

theorem onSweep_visibleLevels (fmtTs : Int → String) (nowStr : String)
    (st : DashboardState) (e : Event) :
    (onSweep fmtTs nowStr st e).visibleLevels = st.visibleLevels := rfl

theorem onWorkerTimeout_visibleLevels (fmtTs : Int → String) (nowStr : String)
    (st : DashboardState) (e : Event) :
    (onWorkerTimeout fmtTs nowStr st e).visibleLevels = st.visibleLevels := by
  simp only [onWorkerTimeout, feed]
  split <;> rfl

theorem onError_visibleLevels (fmtTs : Int → String) (nowStr : String)
    (st : DashboardState) (e : Event) :
    (onError fmtTs nowStr st e).visibleLevels = st.visibleLevels := rfl

theorem route_visibleLevels (fmtTs : Int → String) (nowStr : String)
    (st : DashboardState) (e : Event) :
    (route fmtTs nowStr st e).visibleLevels = st.visibleLevels := by
  unfold route
  by_cases h1 : e.message = "Metrics"
  · rw [if_pos h1]; exact onMetrics_visibleLevels st e
  rw [if_neg h1]
  by_cases h2 : e.message = "Task status"
  · rw [if_pos h2]; exact onTaskStatus_visibleLevels st e
  rw [if_neg h2]
  by_cases h3 : e.message = "Task created"
  · rw [if_pos h3]; exact onTaskCreated_visibleLevels fmtTs nowStr st e
  rw [if_neg h3]
  by_cases h4 : e.message = "Task completed"
  · rw [if_pos h4]; exact onTaskCompleted_visibleLevels fmtTs nowStr st e
  rw [if_neg h4]
  by_cases h5 : e.message = "Dispatching task to ephemeral sandbox"
  · rw [if_pos h5]; exact onDispatch_visibleLevels st e
  rw [if_neg h5]
  by_cases h6 : e.message = "Calling LLM for task decomposition"
  · rw [if_pos h6]; exact onCallingLLM_visibleLevels st e
  rw [if_neg h6]
  by_cases h7 : e.message = "Subtask still complex — recursing"
  · rw [if_pos h7]; exact onSubtaskRecursing_visibleLevels st e
  rw [if_neg h7]
  by_cases h8 : e.message = "Subtask completed by worker"
  · rw [if_pos h8]; exact onSubtaskCompleted_visibleLevels st e
  rw [if_neg h8]
  by_cases h9 : e.message = "Merge result"
  · rw [if_pos h9]; exact onMergeResult_visibleLevels fmtTs nowStr st e
  rw [if_neg h9]
  by_cases h10 : e.message = "Iteration complete"
  · rw [if_pos h10]; exact onIterationComplete_visibleLevels fmtTs nowStr st e
  rw [if_neg h10]
  by_cases h11 : e.message = "Reconciler created fix tasks"
  · rw [if_pos h11]; exact onReconciler_visibleLevels fmtTs nowStr st e
  rw [if_neg h11]
  by_cases h12 : e.message = "Sweep check results"
  · rw [if_pos h12]; exact onSweep_visibleLevels fmtTs nowStr st e
  rw [if_neg h12]
  by_cases h13 : e.message = "Worker timed out"
  · rw [if_pos h13]; exact onWorkerTimeout_visibleLevels fmtTs nowStr st e
  rw [if_neg h13]
  by_cases h14 : e.level = "error"
  · rw [if_pos h14]; exact onError_visibleLevels fmtTs nowStr st e
  rw [if_neg h14]

theorem ingest_visibleLevels (fmtTs : Int → String) (nowStr : String)
    (st : DashboardState) (e : Event) :
    (ingest fmtTs nowStr st e).visibleLevels = st.visibleLevels := by
  unfold ingest
  rw [route_visibleLevels, preEnsure_visibleLevels]

theorem adjust_visibleLevels_lb (st : DashboardState) (d : Int) :
    1 ≤ (st.adjustVisibleLevels d).visibleLevels :=
  le_max_left 1 _

theorem snapStep_visibleLevels_lb (st : DashboardState) :
    1 ≤ st.snapStep.visibleLevels :=
  le_max_left 1 _

theorem currentLevelCap_eq (st : DashboardState) :
    currentLevelCap st = (st.activeMaxDepth : Int) + 1 := by
  unfold currentLevelCap
  have h1 : (1 : Int) ≤ (st.activeMaxDepth : Int) + 1 := by omega
  exact max_eq_right h1

theorem adjust_visibleLevels_ub (st : DashboardState) (d : Int) :
    (st.adjustVisibleLevels d).visibleLevels ≤
      ((st.adjustVisibleLevels d).activeMaxDepth : Int) + 1 := by
  have htree : (st.adjustVisibleLevels d).activeMaxDepth = st.activeMaxDepth := rfl
  rw [htree]
  show max 1 (min (currentLevelCap st) (st.visibleLevels + d)) ≤ _
  have h1 : (1 : Int) ≤ (st.activeMaxDepth : Int) + 1 := by omega
  apply max_le h1
  calc min (currentLevelCap st) (st.visibleLevels + d)
      ≤ currentLevelCap st := min_le_left _ _
    _ = (st.activeMaxDepth : Int) + 1 := currentLevelCap_eq st

theorem snapStep_visibleLevels_ub (st : DashboardState) :
    st.snapStep.visibleLevels ≤ (st.snapStep.activeMaxDepth : Int) + 1 := by
  have htree : st.snapStep.activeMaxDepth = st.activeMaxDepth := rfl
  rw [htree]
  show max 1 (min st.visibleLevels (max 1 ((st.activeMaxDepth : Int) + 1))) ≤ _
  have h1 : (1 : Int) ≤ (st.activeMaxDepth : Int) + 1 := by omega
  apply max_le h1
  calc min st.visibleLevels (max 1 ((st.activeMaxDepth : Int) + 1))
      ≤ max 1 ((st.activeMaxDepth : Int) + 1) := min_le_right _ _
    _ = (st.activeMaxDepth : Int) + 1 := max_eq_right h1

end DashboardState

theorem runD_visibleLevels_lb (fmtTs : Int → String) (nowStr : String) :
    ∀ (ops : List DOp) (st : DashboardState), 1 ≤ st.visibleLevels →
      1 ≤ (runD fmtTs nowStr st ops).visibleLevels := by
  intro ops
  induction ops with
  | nil => intro st h; simpa [runD] using h
  | cons op ops ih =>
    intro st h
    simp only [runD]
    cases op with
    | adjust d => exact ih _ (DashboardState.adjust_visibleLevels_lb st d)
    | ingestE e =>
      apply ih
      rw [DashboardState.ingest_visibleLevels]
      exact h
    | snapOp => exact ih _ (DashboardState.snapStep_visibleLevels_lb st)

theorem c4_counterexample :
    let e1 : Event :=
      { message := "Task created", level := "info", agentRole := "",
        timestamp := 0, taskId := none, data := [("taskId", Val.s "a")] }
    let e2 : Event :=
      { message := "Task completed", level := "info", agentRole := "",
        timestamp := 0, taskId := none,
        data := [("taskId", Val.s "a"), ("status", Val.s "complete")] }
    let fin := runD (fun _ => "") "" DashboardState.initial
      [DOp.ingestE e1, DOp.adjust 1, DOp.ingestE e2]
    fin.visibleLevels = 2 ∧ fin.activeMaxDepth = 0 ∧
      ¬ fin.visibleLevels ≤ (fin.activeMaxDepth : Int) + 1 := by
  refine ⟨?_, ?_, ?_⟩ <;> with_unfolding_all decide

theorem c4_visible_levels_amended (fmtTs : Int → String) (nowStr : String) :
    (∀ ops : List DOp,
      1 ≤ (runD fmtTs nowStr DashboardState.initial ops).visibleLevels) ∧
    (∀ (st : DashboardState) (d : Int),
      1 ≤ (st.adjustVisibleLevels d).visibleLevels ∧
      (st.adjustVisibleLevels d).visibleLevels ≤
        ((st.adjustVisibleLevels d).activeMaxDepth : Int) + 1) ∧
    (∀ st : DashboardState,
      1 ≤ st.snapStep.visibleLevels ∧
      st.snapStep.visibleLevels ≤ (st.snapStep.activeMaxDepth : Int) + 1) := by
  refine ⟨?_, ?_, ?_⟩
  · intro ops
    exact runD_visibleLevels_lb fmtTs nowStr ops DashboardState.initial (by decide)
  · intro st d
    exact ⟨DashboardState.adjust_visibleLevels_lb st d,
      DashboardState.adjust_visibleLevels_ub st d⟩
  · intro st
    exact ⟨DashboardState.snapStep_visibleLevels_lb st,
      DashboardState.snapStep_visibleLevels_ub st⟩

namespace DashboardState

theorem preEnsure_noTid (st : DashboardState) (e : Event)
    (htid : e.taskIdStr = "") : preEnsure st e = st := by
  simp [preEnsure, htid]

theorem route_unrecognized (fmtTs : Int → String) (nowStr : String)
    (st : DashboardState) (e : Event)
    (hmsg : e.message ∉ recognizedMessages) (hlvl : e.level ≠ "error") :
    route fmtTs nowStr st e = st := by
  simp only [recognizedMessages, List.mem_cons, List.not_mem_nil, or_false,
    not_or] at hmsg
  obtain ⟨n1, n2, n3, n4, n5, n6, n7, n8, n9, n10, n11, n12, n13⟩ := hmsg
  unfold route
  rw [if_neg n1, if_neg n2, if_neg n3, if_neg n4, if_neg n5, if_neg n6,
    if_neg n7, if_neg n8, if_neg n9, if_neg n10, if_neg n11, if_neg n12,
    if_neg n13, if_neg hlvl]

end DashboardState

theorem c5_counterexample :
    let e : Event :=
      { message := "Nope", level := "info", agentRole := "", timestamp := 0,
        taskId := none, data := [("taskId", Val.s "x")] }
    let st' := DashboardState.ingest (fun _ => "") "" DashboardState.initial e
    (alookup st'.tree.parent "x").isSome ∧ st' ≠ DashboardState.initial := by
  refine ⟨?_, ?_⟩ <;> with_unfolding_all decide

theorem c5_ingest_noop_amended (fmtTs : Int → String) (nowStr : String)
    (st : DashboardState) (e : Event)
    (hmsg : e.message ∉ DashboardState.recognizedMessages)
    (hlvl : e.level ≠ "error") (htid : e.taskIdStr = "") :
    DashboardState.ingest fmtTs nowStr st e = st := by
  unfold DashboardState.ingest
  rw [DashboardState.preEnsure_noTid st e htid,
    DashboardState.route_unrecognized fmtTs nowStr st e hmsg hlvl]

theorem c5_ingest_noop_amended_witness :
    DashboardState.ingest (fun _ => "") "" DashboardState.initial
      { message := "Nope", level := "info", agentRole := "", timestamp := 0,
        taskId := none, data := [] } = DashboardState.initial :=
  c5_ingest_noop_amended (fun _ => "") "" DashboardState.initial _
    (by decide) (by decide) (by decide)

theorem c7_counterexample :
    let e : Event :=
      { message := "Metrics", level := "info", agentRole := "", timestamp := 0,
        taskId := none,
        data := [("taskId", Val.s "x"), ("activeWorkers", Val.i 5)] }
    let st' := DashboardState.ingest (fun _ => "") "" DashboardState.initial e
    st'.activeWorkers = Val.i 5 ∧ st'.tree ≠ DashboardState.initial.tree := by
  refine ⟨?_, ?_⟩ <;> with_unfolding_all decide

theorem route_metrics_eq (fmtTs : Int → String) (nowStr : String)
    (st : DashboardState) (e : Event) (hmsg : e.message = "Metrics") :
    DashboardState.route fmtTs nowStr st e = DashboardState.onMetrics st e := by
  unfold DashboardState.route
  rw [if_pos hmsg]

theorem c7_metrics_amended (fmtTs : Int → String) (nowStr : String)
    (st : DashboardState) (e : Event)
    (hmsg : e.message = "Metrics") (htid : e.taskIdStr = "") :
    (DashboardState.ingest fmtTs nowStr st e).activeWorkers =
        (alookup e.data "activeWorkers").getD st.activeWorkers ∧
    (DashboardState.ingest fmtTs nowStr st e).pendingTasks =
        (alookup e.data "pendingTasks").getD st.pendingTasks ∧
    (DashboardState.ingest fmtTs nowStr st e).completedTasks =
        (alookup e.data "completedTasks").getD st.completedTasks ∧
    (DashboardState.ingest fmtTs nowStr st e).failedTasks =
        (alookup e.data "failedTasks").getD st.failedTasks ∧
    (DashboardState.ingest fmtTs nowStr st e).commitsPerHour =
        (alookup e.data "commitsPerHour").getD st.commitsPerHour ∧
    (DashboardState.ingest fmtTs nowStr st e).mergeSuccessRate =
        (alookup e.data "mergeSuccessRate").getD st.mergeSuccessRate ∧
    (DashboardState.ingest fmtTs nowStr st e).totalTokens =
        (alookup e.data "totalTokensUsed").getD st.totalTokens ∧
    (DashboardState.ingest fmtTs nowStr st e).tree = st.tree ∧
    (DashboardState.ingest fmtTs nowStr st e).visibleLevels = st.visibleLevels ∧
    (DashboardState.ingest fmtTs nowStr st e).activeTab = st.activeTab ∧
    (DashboardState.ingest fmtTs nowStr st e).inProgressScroll = st.inProgressScroll ∧
    (DashboardState.ingest fmtTs nowStr st e).completedScroll = st.completedScroll ∧
    (DashboardState.ingest fmtTs nowStr st e).mergeMerged = st.mergeMerged ∧
    (DashboardState.ingest fmtTs nowStr st e).mergeConflicts = st.mergeConflicts ∧
    (DashboardState.ingest fmtTs nowStr st e).mergeFailed = st.mergeFailed ∧
    (DashboardState.ingest fmtTs nowStr st e).activity = st.activity ∧
    (DashboardState.ingest fmtTs nowStr st e).linesAdded = st.linesAdded ∧
    (DashboardState.ingest fmtTs nowStr st e).iteration = st.iteration := by
  have h : DashboardState.ingest fmtTs nowStr st e = DashboardState.onMetrics st e := by
    unfold DashboardState.ingest
    rw [DashboardState.preEnsure_noTid st e htid, route_metrics_eq fmtTs nowStr st e hmsg]
  rw [h]
  exact ⟨rfl, rfl, rfl, rfl, rfl, rfl, rfl, rfl, rfl, rfl, rfl, rfl, rfl, rfl,
    rfl, rfl, rfl, rfl⟩

theorem c7_metrics_amended_witness :
    (DashboardState.ingest (fun _ => "") "" DashboardState.initial
        { message := "Metrics", level := "info", agentRole := "", timestamp := 0,
          taskId := none,
          data := [("activeWorkers", Val.i 7), ("totalTokensUsed", Val.i 123)]
        }).activeWorkers = Val.i 7 ∧
    (DashboardState.ingest (fun _ => "") "" DashboardState.initial
        { message := "Metrics", level := "info", agentRole := "", timestamp := 0,
          taskId := none,
          data := [("activeWorkers", Val.i 7), ("totalTokensUsed", Val.i 123)]
        }).pendingTasks = DashboardState.initial.pendingTasks := by
  have h := c7_metrics_amended (fun _ => "") "" DashboardState.initial
    { message := "Metrics", level := "info", agentRole := "", timestamp := 0,
      taskId := none,
      data := [("activeWorkers", Val.i 7), ("totalTokensUsed", Val.i 123)] }
    (by decide) (by decide)
  refine ⟨?_, ?_⟩
  · rw [h.1]; decide
  · rw [h.2.1]; decide

theorem splitSemis_append {a l : List Char} (ha : ∀ c ∈ a, c ≠ ';')
    {h : List Char} {t : List (List Char)} (hl : splitSemis l = h :: t) :
    splitSemis (a ++ l) = (a ++ h) :: t := by
  induction a with
  | nil => simpa using hl
  | cons c cs ih =>
    have hc : c ≠ ';' := ha c (by simp)
    have ih' := ih (fun x hx => ha x (by simp [hx]))
    simp [splitSemis, hc, ih']

theorem splitSemis_nosemi {a : List Char} (ha : ∀ c ∈ a, c ≠ ';') :
    splitSemis a = [a] := by
  have h0 : splitSemis ([] : List Char) = [] :: [] := rfl
  have := splitSemis_append ha h0
  simpa using this

theorem digitsVal_mem {cs : List Char} {n : Nat} (h : digitsVal cs = some n) :
    ∀ c ∈ cs, isDigitB c = true := by
  unfold digitsVal at h
  by_cases hc : cs.isEmpty ∨ ¬ cs.all isDigitB
  · rw [if_pos hc] at h; cases h
  · have hall : cs.all isDigitB = true := by
      by_cases h2 : cs.all isDigitB
      · exact h2
      · exact absurd (Or.inr h2) hc
    intro c hcmem
    exact List.all_eq_true.mp hall c hcmem

theorem isDigitB_not_semi {c : Char} (h : isDigitB c = true) : c ≠ ';' := by
  intro hc; subst hc; revert h; decide

theorem isDigitB_lt128 {c : Char} (h : isDigitB c = true) : c.toNat < 128 := by
  simp only [isDigitB, Bool.and_eq_true, decide_eq_true_eq] at h
  omega

theorem pyInt_chars {cs : List Char} {v : Int} (h : pyInt cs = some v) :
    ∀ c ∈ cs, c ≠ ';' ∧ c.toNat < 128 := by
  cases cs with
  | nil => simp [pyInt] at h
  | cons c rest =>
    intro x hx
    by_cases hm : c = '-'
    · subst hm
      simp only [pyInt, if_pos rfl] at h
      cases hd : digitsVal rest with
      | none => rw [hd] at h; simp at h
      | some n =>
        rcases List.mem_cons.mp hx with h1 | h1
        · subst h1; exact ⟨by decide, by decide⟩
        · have hdig := digitsVal_mem hd x h1
          exact ⟨isDigitB_not_semi hdig, isDigitB_lt128 hdig⟩
    · by_cases hp : c = '+'
      · subst hp
        simp only [pyInt, hm, if_pos rfl, if_false] at h
        cases hd : digitsVal rest with
        | none => rw [hd] at h; simp at h
        | some n =>
          rcases List.mem_cons.mp hx with h1 | h1
          · subst h1; exact ⟨by decide, by decide⟩
          · have hdig := digitsVal_mem hd x h1
            exact ⟨isDigitB_not_semi hdig, isDigitB_lt128 hdig⟩
      · simp only [pyInt, hm, hp, if_false] at h
        cases hd : digitsVal (c :: rest) with
        | none => rw [hd] at h; simp at h
        | some n =>
          have hdig := digitsVal_mem hd x hx
          exact ⟨isDigitB_not_semi hdig, isDigitB_lt128 hdig⟩

theorem sgr_seq_decode (bs xs ys : List Char) (b x y : Int)
    (hb : pyInt bs = some b) (hx : pyInt xs = some x) (hy : pyInt ys = some y) :
    escDecode ('[' :: '<' :: (bs ++ ';' :: (xs ++ ';' :: (ys ++ ['M'])))) =
      (if b = 64 ∨ b = 96 then
        "MWHEEL_UP:" ++ toString x ++ ":" ++ toString y
      else if b = 65 ∨ b = 97 then
        "MWHEEL_DOWN:" ++ toString x ++ ":" ++ toString y
      else if pyBitSet b 6 ∧ ¬ pyBitSet b 0 then
        "MWHEEL_UP:" ++ toString x ++ ":" ++ toString y
      else if pyBitSet b 6 ∧ pyBitSet b 0 then
        "MWHEEL_DOWN:" ++ toString x ++ ":" ++ toString y
      else escX10Decode ('[' :: '<' :: (bs ++ ';' :: (xs ++ ';' :: (ys ++ ['M']))))) := by
  have hbs := pyInt_chars hb
  have hxs := pyInt_chars hx
  have hys := pyInt_chars hy
  have hcond : ('[' :: '<' :: (bs ++ ';' :: (xs ++ ';' :: (ys ++ ['M'])))).take 2 =
      ['[', '<'] ∧
      ((('[' :: '<' :: (bs ++ ';' :: (xs ++ ';' :: (ys ++ ['M'])))).getLast? = some 'M') ∨
       (('[' :: '<' :: (bs ++ ';' :: (xs ++ ';' :: (ys ++ ['M'])))).getLast? = some 'm')) := by
    constructor
    · rfl
    · left
      have : '[' :: '<' :: (bs ++ ';' :: (xs ++ ';' :: (ys ++ ['M']))) =
          ('[' :: '<' :: (bs ++ ';' :: (xs ++ ';' :: ys))) ++ ['M'] := by
        simp
      rw [this, List.getLast?_concat]
  have hbody : ((('[' :: '<' :: (bs ++ ';' :: (xs ++ ';' :: (ys ++ ['M'])))).drop 2).dropLast).filter
      (fun c => c.toNat < 128) = bs ++ ';' :: (xs ++ ';' :: ys) := by
    have hdrop : (('[' :: '<' :: (bs ++ ';' :: (xs ++ ';' :: (ys ++ ['M'])))).drop 2) =
        bs ++ ';' :: (xs ++ ';' :: (ys ++ ['M'])) := rfl
    rw [hdrop]
    have hshape : bs ++ ';' :: (xs ++ ';' :: (ys ++ ['M'])) =
        (bs ++ ';' :: (xs ++ ';' :: ys)) ++ ['M'] := by simp
    rw [hshape, List.dropLast_concat]
    apply List.filter_eq_self.mpr
    intro c hc
    simp only [decide_eq_true_eq]
    rcases List.mem_append.mp hc with h1 | h1
    · exact (hbs c h1).2
    · rcases List.mem_cons.mp h1 with h2 | h2
      · subst h2; decide
      · rcases List.mem_append.mp h2 with h3 | h3
        · exact (hxs c h3).2
        · rcases List.mem_cons.mp h3 with h4 | h4
          · subst h4; decide
          · exact (hys c h4).2
  have hsplit : splitSemis (bs ++ ';' :: (xs ++ ';' :: ys)) = [bs, xs, ys] := by
    have hy1 : splitSemis ys = ys :: [] := splitSemis_nosemi (fun c hc => (hys c hc).1)
    have hy2 : splitSemis (';' :: ys) = [] :: ys :: [] := by simp [splitSemis, hy1]
    have hx1 : splitSemis (xs ++ ';' :: ys) = (xs ++ []) :: ys :: [] :=
      splitSemis_append (fun c hc => (hxs c hc).1) hy2
    have hx2 : splitSemis (';' :: (xs ++ ';' :: ys)) = [] :: (xs ++ []) :: ys :: [] := by
      simp [splitSemis, hx1]
    have hb1 : splitSemis (bs ++ ';' :: (xs ++ ';' :: ys)) =
        (bs ++ []) :: (xs ++ []) :: ys :: [] :=
      splitSemis_append (fun c hc => (hbs c hc).1) hx2
    simpa using hb1
  simp only [escDecode]
  rw [if_pos hcond, hbody, hsplit]
  simp only [hb, hx, hy]

theorem c8_sgr_wheel_decode :
    (escDecode ("[<65;12;8M".data) = "MWHEEL_DOWN:12:8" ∧
     escDecode ("[<64;12;8M".data) = "MWHEEL_UP:12:8") ∧
    (∀ (bs xs ys : List Char) (b x y : Int),
      pyInt bs = some b → pyInt xs = some x → pyInt ys = some y →
      ((b = 64 ∨ b = 96 →
        escDecode ('[' :: '<' :: (bs ++ ';' :: (xs ++ ';' :: (ys ++ ['M'])))) =
          "MWHEEL_UP:" ++ toString x ++ ":" ++ toString y) ∧
       (b = 65 ∨ b = 97 →
        escDecode ('[' :: '<' :: (bs ++ ';' :: (xs ++ ';' :: (ys ++ ['M'])))) =
          "MWHEEL_DOWN:" ++ toString x ++ ":" ++ toString y))) := by
  constructor
  · exact ⟨by decide, by decide⟩
  · intro bs xs ys b x y hb hx hy
    have hmain := sgr_seq_decode bs xs ys b x y hb hx hy
    constructor
    · intro hup
      rw [hmain, if_pos hup]
    · intro hdown
      have hnup : ¬ (b = 64 ∨ b = 96) := by
        rcases hdown with h | h <;> subst h <;> decide
      rw [hmain, if_neg hnup, if_pos hdown]

theorem c8_sgr_wheel_decode_witness :
    escDecode ('[' :: '<' :: ("64".data ++ ';' :: ("12".data ++ ';' :: ("8".data ++ ['M'])))) =
      "MWHEEL_UP:" ++ toString (12 : Int) ++ ":" ++ toString (8 : Int) :=
  (c8_sgr_wheel_decode.2 "64".data "12".data "8".data 64 12 8
    (by decide) (by decide) (by decide)).1 (Or.inl rfl)

namespace PlannerTreeState

theorem registerNode_parent_mono {t : PlannerTreeState} {k : String}
    (h : (alookup t.parent k).isSome) (n : String) (pc r : Option String) :
    (alookup (registerNode t n pc r).parent k).isSome := by
  unfold registerNode
  by_cases hp : (alookup t.parent n).isSome
  · rw [if_pos hp]
    exact h
  · rw [if_neg hp]
    show (alookup (ainsert t.parent n pc) k).isSome
    rw [alookup_ainsert]
    split
    · simp
    · exact h

theorem registerNode_parent_self (t : PlannerTreeState) (n : String)
    (pc r : Option String) :
    (alookup (registerNode t n pc r).parent n).isSome := by
  unfold registerNode
  by_cases hp : (alookup t.parent n).isSome
  · rw [if_pos hp]
    exact hp
  · rw [if_neg hp]
    show (alookup (ainsert t.parent n pc) n).isSome
    rw [alookup_ainsert]
    simp

theorem appendKid_parent (t : PlannerTreeState) (n pid : String) :
    (appendKid t n pid).parent = t.parent := rfl

theorem appendKid_status (t : PlannerTreeState) (n pid : String) :
    (appendKid t n pid).status = t.status := rfl

theorem appendKid_role (t : PlannerTreeState) (n pid : String) :
    (appendKid t n pid).role = t.role := rfl

theorem dropFromOld_parent (t : PlannerTreeState) (n : String) :
    (dropFromOld t n).parent = t.parent := by
  unfold dropFromOld
  split
  · split <;> rfl
  · rfl

theorem dropFromOld_status (t : PlannerTreeState) (n : String) :
    (dropFromOld t n).status = t.status := by
  unfold dropFromOld
  split
  · split <;> rfl
  · rfl

theorem dropFromOld_role (t : PlannerTreeState) (n : String) :
    (dropFromOld t n).role = t.role := by
  unfold dropFromOld
  split
  · split <;> rfl
  · rfl

theorem linkChild_parent_eq (t : PlannerTreeState) (n pid : String) :
    (linkChild t n pid).parent = t.parent ∨
    (linkChild t n pid).parent = ainsert t.parent n (some pid) := by
  unfold linkChild
  split
  · left; rfl
  · right
    show ainsert (dropFromOld (appendKid t n pid) n).parent n (some pid) = _
    rw [dropFromOld_parent, appendKid_parent]

theorem linkChild_status (t : PlannerTreeState) (n pid : String) :
    (linkChild t n pid).status = t.status := by
  unfold linkChild
  split
  · rfl
  · show (dropFromOld (appendKid t n pid) n).status = t.status
    rw [dropFromOld_status, appendKid_status]

theorem linkChild_role (t : PlannerTreeState) (n pid : String) :
    (linkChild t n pid).role = t.role := by
  unfold linkChild
  split
  · rfl
  · show (dropFromOld (appendKid t n pid) n).role = t.role
    rw [dropFromOld_role, appendKid_role]

theorem linkChild_parent_mono {t : PlannerTreeState} {k : String}
    (h : (alookup t.parent k).isSome) (n pid : String) :
    (alookup (linkChild t n pid).parent k).isSome := by
  rcases linkChild_parent_eq t n pid with heq | heq
  · rw [heq]; exact h
  · rw [heq, alookup_ainsert]
    split
    · simp
    · exact h

theorem ensureGo_parent_mono :
    ∀ (fuel : Nat) (t : PlannerTreeState) (n : String) (p r : Option String)
      (k : String), (alookup t.parent k).isSome →
      (alookup (ensureGo fuel t n p r).parent k).isSome := by
  intro fuel
  induction fuel with
  | zero => intro t n p r k h; simpa [ensureGo] using h
  | succ fuel ih =>
    intro t n p r k h
    unfold ensureGo
    split
    · exact h
    · cases hpc : normParent n p with
      | none => exact registerNode_parent_mono h n _ r
      | some pid =>
        apply linkChild_parent_mono
        split
        · exact registerNode_parent_mono h n _ r
        · exact ih _ _ _ _ _ (registerNode_parent_mono h n _ r)

theorem ensureGo_parent_self (fuel : Nat) (t : PlannerTreeState) (n : String)
    (p r : Option String) (hn : n ≠ "") :
    (alookup (ensureGo (fuel + 1) t n p r).parent n).isSome := by
  unfold ensureGo
  rw [if_neg hn]
  cases hpc : normParent n p with
  | none => exact registerNode_parent_self t n _ r
  | some pid =>
    apply linkChild_parent_mono
    split
    · exact registerNode_parent_self t n _ r
    · exact ensureGo_parent_mono _ _ _ _ _ _ (registerNode_parent_self t n _ r)

theorem registerNode_status_pres {t : PlannerTreeState} {k : String} {v : String}
    (h : alookup t.status k = some v) (n : String) (pc r : Option String) :
    alookup (registerNode t n pc r).status k = some v := by
  unfold registerNode
  by_cases hp : (alookup t.parent n).isSome
  · rw [if_pos hp]
    exact h
  · rw [if_neg hp]
    show alookup (asetd t.status n "pending") k = some v
    rw [alookup_asetd]
    split
    · exact h
    · split
      · rename_i hnone hnk
        subst hnk
        rw [h] at hnone
        simp at hnone
      · exact h

theorem ensureGo_status_pres :
    ∀ (fuel : Nat) (t : PlannerTreeState) (n : String) (p r : Option String)
      (k : String) (v : String), alookup t.status k = some v →
      alookup (ensureGo fuel t n p r).status k = some v := by
  intro fuel
  induction fuel with
  | zero => intro t n p r k v h; simpa [ensureGo] using h
  | succ fuel ih =>
    intro t n p r k v h
    unfold ensureGo
    split
    · exact h
    · cases hpc : normParent n p with
      | none => exact registerNode_status_pres h n _ r
      | some pid =>
        rw [linkChild_status]
        split
        · exact registerNode_status_pres h n _ r
        · exact ih _ _ _ _ _ _ (registerNode_status_pres h n _ r)

theorem registerNode_status_fresh {t : PlannerTreeState} {n : String}
    (hp : alookup t.parent n = none) (hs : alookup t.status n = none)
    (pc r : Option String) :
    alookup (registerNode t n pc r).status n = some "pending" := by
  unfold registerNode
  rw [if_neg (by rw [hp]; simp)]
  show alookup (asetd t.status n "pending") n = some "pending"
  rw [alookup_asetd, hs]
  simp

theorem ensureGo_status_fresh (fuel : Nat) (t : PlannerTreeState) (n : String)
    (p r : Option String) (hn : n ≠ "")
    (hp : alookup t.parent n = none) (hs : alookup t.status n = none) :
    alookup (ensureGo (fuel + 1) t n p r).status n = some "pending" := by
  unfold ensureGo
  rw [if_neg hn]
  cases hpc : normParent n p with
  | none => exact registerNode_status_fresh hp hs _ r
  | some pid =>
    rw [linkChild_status]
    split
    · exact registerNode_status_fresh hp hs _ r
    · exact ensureGo_status_pres _ _ _ _ _ _ _ (registerNode_status_fresh hp hs _ r)

theorem ensure_parent_mono {t : PlannerTreeState} {k : String}
    (h : (alookup t.parent k).isSome) (n : String) (p r : Option String) :
    (alookup (ensure t n p r).parent k).isSome :=
  ensureGo_parent_mono _ t n p r k h

theorem ensure_parent_self (t : PlannerTreeState) (n : String)
    (p r : Option String) (hn : n ≠ "") :
    (alookup (ensure t n p r).parent n).isSome := by
  show (alookup (ensureGo (fuelFor n p) t n p r).parent n).isSome
  rw [show fuelFor n p =
    (n.length + (match p with | some q => q.length | none => 0) + 2) + 1 from rfl]
  exact ensureGo_parent_self _ t n p r hn

theorem ensure_status_fresh (t : PlannerTreeState) (n : String)
    (p r : Option String) (hn : n ≠ "")
    (hp : alookup t.parent n = none) (hs : alookup t.status n = none) :
    alookup (ensure t n p r).status n = some "pending" := by
  show alookup (ensureGo (fuelFor n p) t n p r).status n = some "pending"
  rw [show fuelFor n p =
    (n.length + (match p with | some q => q.length | none => 0) + 2) + 1 from rfl]
  exact ensureGo_status_fresh _ t n p r hn hp hs

theorem updateStatus_parent_mono {t : PlannerTreeState} {k : String}
    (h : (alookup t.parent k).isSome) (n newSt : String) (p r : Option String) :
    (alookup (updateStatus t n newSt p r).parent k).isSome := by
  unfold updateStatus
  exact ensure_parent_mono h n p r

end PlannerTreeState

namespace DashboardState

theorem onMetrics_tree (st : DashboardState) (e : Event) :
    (onMetrics st e).tree = st.tree := rfl

theorem onTaskStatus_parent_mono {st : DashboardState} {k : String}
    (h : (alookup st.tree.parent k).isSome) (e : Event) :
    (alookup (onTaskStatus st e).tree.parent k).isSome := by
  simp only [onTaskStatus]
  split
  · exact PlannerTreeState.updateStatus_parent_mono h _ _ _ _
  · exact h

theorem onTaskCreated_parent_mono {st : DashboardState} {k : String}
    (h : (alookup st.tree.parent k).isSome) (fmtTs : Int → String)
    (nowStr : String) (e : Event) :
    (alookup (onTaskCreated fmtTs nowStr st e).tree.parent k).isSome := by
  simp only [onTaskCreated, feed]
  split
  · exact PlannerTreeState.updateStatus_parent_mono h _ _ _ _
  · exact h

theorem onTaskCompleted_parent_mono {st : DashboardState} {k : String}
    (h : (alookup st.tree.parent k).isSome) (fmtTs : Int → String)
    (nowStr : String) (e : Event) :
    (alookup (onTaskCompleted fmtTs nowStr st e).tree.parent k).isSome := by
  simp only [onTaskCompleted, feed]
  split
  · exact PlannerTreeState.updateStatus_parent_mono h _ _ _ _
  · exact h

theorem onDispatch_parent_mono {st : DashboardState} {k : String}
    (h : (alookup st.tree.parent k).isSome) (e : Event) :
    (alookup (onDispatch st e).tree.parent k).isSome := by
  simp only [onDispatch]
  split
  · exact PlannerTreeState.updateStatus_parent_mono h _ _ _ _
  · exact h

theorem onCallingLLM_parent_mono {st : DashboardState} {k : String}
    (h : (alookup st.tree.parent k).isSome) (e : Event) :
    (alookup (onCallingLLM st e).tree.parent k).isSome := by
  simp only [onCallingLLM]
  split
  · exact PlannerTreeState.updateStatus_parent_mono h _ _ _ _
  · exact h

theorem onSubtaskRecursing_parent_mono {st : DashboardState} {k : String}
    (h : (alookup st.tree.parent k).isSome) (e : Event) :
    (alookup (onSubtaskRecursing st e).tree.parent k).isSome := by
  simp only [onSubtaskRecursing]
  split
  · exact PlannerTreeState.updateStatus_parent_mono h _ _ _ _
  · exact h

theorem onSubtaskCompleted_parent_mono {st : DashboardState} {k : String}
    (h : (alookup st.tree.parent k).isSome) (e : Event) :
    (alookup (onSubtaskCompleted st e).tree.parent k).isSome := by
  simp only [onSubtaskCompleted]
  split
  · exact PlannerTreeState.updateStatus_parent_mono h _ _ _ _
  · exact h

theorem onMergeResult_tree (fmtTs : Int → String) (nowStr : String)
    (st : DashboardState) (e : Event) :
    (onMergeResult fmtTs nowStr st e).tree = st.tree := by
  simp only [onMergeResult, feed]
  split
  · rfl
  · split <;> rfl

theorem onIterationComplete_tree (fmtTs : Int → String) (nowStr : String)
    (st : DashboardState) (e : Event) :
    (onIterationComplete fmtTs nowStr st e).tree = st.tree := rfl

theorem onReconciler_tree (fmtTs : Int → String) (nowStr : String)
    (st : DashboardState) (e : Event) :
    (onReconciler fmtTs nowStr st e).tree = st.tree := rfl

theorem onSweep_tree (fmtTs : Int → String) (nowStr : String)
    (st : DashboardState) (e : Event) :
    (onSweep fmtTs nowStr st e).tree = st.tree := rfl

theorem onWorkerTimeout_parent_mono {st : DashboardState} {k : String}
    (h : (alookup st.tree.parent k).isSome) (fmtTs : Int → String)
    (nowStr : String) (e : Event) :
    (alookup (onWorkerTimeout fmtTs nowStr st e).tree.parent k).isSome := by
  simp only [onWorkerTimeout, feed]
  split
  · exact PlannerTreeState.updateStatus_parent_mono h _ _ _ _
  · exact h

theorem onError_tree (fmtTs : Int → String) (nowStr : String)
    (st : DashboardState) (e : Event) :
    (onError fmtTs nowStr st e).tree = st.tree := rfl

theorem route_parent_mono {st : DashboardState} {k : String}
    (h : (alookup st.tree.parent k).isSome) (fmtTs : Int → String)
    (nowStr : String) (e : Event) :
    (alookup (route fmtTs nowStr st e).tree.parent k).isSome := by
  unfold route
  by_cases h1 : e.message = "Metrics"
  · rw [if_pos h1, onMetrics_tree]; exact h
  rw [if_neg h1]
  by_cases h2 : e.message = "Task status"
  · rw [if_pos h2]; exact onTaskStatus_parent_mono h e
  rw [if_neg h2]
  by_cases h3 : e.message = "Task created"
  · rw [if_pos h3]; exact onTaskCreated_parent_mono h fmtTs nowStr e
  rw [if_neg h3]
  by_cases h4 : e.message = "Task completed"
  · rw [if_pos h4]; exact onTaskCompleted_parent_mono h fmtTs nowStr e
  rw [if_neg h4]
  by_cases h5 : e.message = "Dispatching task to ephemeral sandbox"
  · rw [if_pos h5]; exact onDispatch_parent_mono h e
  rw [if_neg h5]
  by_cases h6 : e.message = "Calling LLM for task decomposition"
  · rw [if_pos h6]; exact onCallingLLM_parent_mono h e
  rw [if_neg h6]
  by_cases h7 : e.message = "Subtask still complex — recursing"
  · rw [if_pos h7]; exact onSubtaskRecursing_parent_mono h e
  rw [if_neg h7]
  by_cases h8 : e.message = "Subtask completed by worker"
  · rw [if_pos h8]; exact onSubtaskCompleted_parent_mono h e
  rw [if_neg h8]
  by_cases h9 : e.message = "Merge result"
  · rw [if_pos h9, onMergeResult_tree]; exact h
  rw [if_neg h9]
  by_cases h10 : e.message = "Iteration complete"
  · rw [if_pos h10, onIterationComplete_tree]; exact h
  rw [if_neg h10]
  by_cases h11 : e.message = "Reconciler created fix tasks"
  · rw [if_pos h11, onReconciler_tree]; exact h
  rw [if_neg h11]
  by_cases h12 : e.message = "Sweep check results"
  · rw [if_pos h12, onSweep_tree]; exact h
  rw [if_neg h12]
  by_cases h13 : e.message = "Worker timed out"
  · rw [if_pos h13]; exact onWorkerTimeout_parent_mono h fmtTs nowStr e
  rw [if_neg h13]
  by_cases h14 : e.level = "error"
  · rw [if_pos h14, onError_tree]; exact h
  rw [if_neg h14]; exact h

theorem route_tree_unrecognized (fmtTs : Int → String) (nowStr : String)
    (st : DashboardState) (e : Event)
    (hmsg : e.message ∉ recognizedMessages) :
    (route fmtTs nowStr st e).tree = st.tree := by
  by_cases hlvl : e.level = "error"
  · simp only [recognizedMessages, List.mem_cons, List.not_mem_nil, or_false,
      not_or] at hmsg
    obtain ⟨n1, n2, n3, n4, n5, n6, n7, n8, n9, n10, n11, n12, n13⟩ := hmsg
    unfold route
    rw [if_neg n1, if_neg n2, if_neg n3, if_neg n4, if_neg n5, if_neg n6,
      if_neg n7, if_neg n8, if_neg n9, if_neg n10, if_neg n11, if_neg n12,
      if_neg n13, if_pos hlvl, onError_tree]
  · rw [route_unrecognized fmtTs nowStr st e hmsg hlvl]

end DashboardState

theorem c10_pre_ensure (fmtTs : Int → String) (nowStr : String)
    (st : DashboardState) (e : Event) (htid : e.taskIdStr ≠ "") :
    (alookup (DashboardState.ingest fmtTs nowStr st e).tree.parent
      e.taskIdStr).isSome ∧
    (e.message ∉ DashboardState.recognizedMessages →
      (DashboardState.ingest fmtTs nowStr st e).tree =
        st.tree.ensure e.taskIdStr (e.parentForEnsure e.taskIdStr)
          (eventNodeRole e.agentRole) ∧
      (alookup st.tree.parent e.taskIdStr = none →
       alookup st.tree.status e.taskIdStr = none →
       alookup (DashboardState.ingest fmtTs nowStr st e).tree.status
         e.taskIdStr = some "pending")) := by
  have hpre : (DashboardState.preEnsure st e).tree =
      st.tree.ensure e.taskIdStr (e.parentForEnsure e.taskIdStr)
        (eventNodeRole e.agentRole) := by
    unfold DashboardState.preEnsure
    rw [if_pos htid]
  constructor
  · unfold DashboardState.ingest
    apply DashboardState.route_parent_mono
    rw [hpre]
    exact PlannerTreeState.ensure_parent_self st.tree e.taskIdStr _ _ htid
  · intro hmsg
    have htree : (DashboardState.ingest fmtTs nowStr st e).tree =
        st.tree.ensure e.taskIdStr (e.parentForEnsure e.taskIdStr)
          (eventNodeRole e.agentRole) := by
      unfold DashboardState.ingest
      rw [DashboardState.route_tree_unrecognized fmtTs nowStr _ e hmsg, hpre]
    refine ⟨htree, ?_⟩
    intro hp hs
    rw [htree]
    exact PlannerTreeState.ensure_status_fresh st.tree e.taskIdStr _ _ htid hp hs

theorem c10_pre_ensure_witness :
    let e : Event :=
      { message := "Totally unknown", level := "info", agentRole := "",
        timestamp := 0, taskId := none, data := [("taskId", Val.s "n1-sub-2")] }
    (alookup (DashboardState.ingest (fun _ => "") "" DashboardState.initial
        e).tree.parent "n1-sub-2").isSome ∧
    alookup (DashboardState.ingest (fun _ => "") "" DashboardState.initial
        e).tree.status "n1-sub-2" = some "pending" := by
  intro e
  have h := c10_pre_ensure (fun _ => "") "" DashboardState.initial e (by decide)
  have h2 := (h.2 (by decide)).2 (by decide) (by decide)
  exact ⟨h.1, h2⟩

namespace PlannerTreeState

theorem ensureGo_succ (fuel : Nat) (t : PlannerTreeState) (n : String)
    (p r : Option String) :
    ensureGo (fuel + 1) t n p r =
      (if n = "" then t else
        match normParent n p with
        | none => registerNode t n (normParent n p) r
        | some pid =>
          linkChild
            (if (alookup (registerNode t n (normParent n p) r).parent pid).isSome
             then registerNode t n (normParent n p) r
             else ensureGo fuel (registerNode t n (normParent n p) r) pid
               (normParent pid none) none)
            n pid) := rfl

theorem ensureGo_empty (fuel : Nat) (t : PlannerTreeState)
    (p r : Option String) : ensureGo fuel t "" p r = t := by
  cases fuel with
  | zero => rfl
  | succ fuel => rw [ensureGo_succ, if_pos rfl]

theorem ensure_empty (t : PlannerTreeState) (p r : Option String) :
    ensure t "" p r = t := ensureGo_empty _ t p r

theorem roleUpdate_noop {t : PlannerTreeState} {n : String} {role : Option String}
    (h : RoleOK t n role) : roleUpdate t n role = t.role := by
  cases role with
  | none => rfl
  | some rr =>
    show (if rr = "" then t.role else ainsert t.role n rr) = t.role
    rcases h with h | h
    · rw [if_pos h]
    · by_cases hb : rr = ""
      · rw [if_pos hb]
      · rw [if_neg hb]
        exact ainsert_self t.role n rr h

theorem registerNode_present (t : PlannerTreeState) (n : String)
    (pc role : Option String) (h : (alookup t.parent n).isSome) :
    registerNode t n pc role = { t with role := roleUpdate t n role } := by
  unfold registerNode
  rw [if_pos h]

theorem registerNode_noop {t : PlannerTreeState} {n : String}
    {pc role : Option String} (h : (alookup t.parent n).isSome)
    (hr : RoleOK t n role) : registerNode t n pc role = t := by
  rw [registerNode_present t n pc role h, roleUpdate_noop hr]

theorem registerNode_role_truthy (t : PlannerTreeState) (n : String)
    (pc : Option String) (rr : String) (hrr : rr ≠ "") :
    alookup (registerNode t n pc (some rr)).role n = some rr := by
  unfold registerNode
  have hru : roleUpdate t n (some rr) = ainsert t.role n rr := by
    show (if rr = "" then t.role else ainsert t.role n rr) = ainsert t.role n rr
    rw [if_neg hrr]
  split
  · show alookup (roleUpdate t n (some rr)) n = some rr
    rw [hru, alookup_ainsert, if_pos rfl]
  · show alookup (roleUpdate t n (some rr)) n = some rr
    rw [hru, alookup_ainsert, if_pos rfl]

theorem registerNode_role_none (t : PlannerTreeState) (n : String)
    (pc : Option String) : (registerNode t n pc none).role = t.role := by
  unfold registerNode
  split <;> rfl

theorem ensureGo_role_none :
    ∀ (fuel : Nat) (t : PlannerTreeState) (n : String) (p : Option String),
      (ensureGo fuel t n p none).role = t.role := by
  intro fuel
  induction fuel with
  | zero => intro t n p; rfl
  | succ fuel ih =>
    intro t n p
    rw [ensureGo_succ]
    split
    · rfl
    · cases hpc : normParent n p with
      | none => exact registerNode_role_none t n _
      | some pid =>
        rw [linkChild_role]
        split
        · exact registerNode_role_none t n _
        · rw [ih, registerNode_role_none]

theorem ensureGo_role_self (fuel : Nat) (t : PlannerTreeState) (n : String)
    (p : Option String) (rr : String) (hn : n ≠ "") (hrr : rr ≠ "") :
    alookup (ensureGo (fuel + 1) t n p (some rr)).role n = some rr := by
  rw [ensureGo_succ, if_neg hn]
  cases hpc : normParent n p with
  | none => exact registerNode_role_truthy t n _ rr hrr
  | some pid =>
    rw [linkChild_role]
    split
    · exact registerNode_role_truthy t n _ rr hrr
    · rw [ensureGo_role_none]
      exact registerNode_role_truthy t n _ rr hrr

theorem pget_parent_congr {t t' : PlannerTreeState} (h : t'.parent = t.parent)
    (k : String) : pget t' k = pget t k := by
  unfold pget
  rw [h]

theorem pget_linkChild_self (t : PlannerTreeState) (n pid : String) :
    pget (linkChild t n pid) n = some pid := by
  unfold linkChild
  split
  · rename_i hcond
    exact hcond
  · show pget { dropFromOld (appendKid t n pid) n with
      parent := (ainsert (dropFromOld (appendKid t n pid) n).parent n (some pid)) } n = some pid
    unfold pget
    show (match alookup (ainsert (dropFromOld (appendKid t n pid) n).parent n (some pid)) n with
      | some v => v | none => none) = some pid
    rw [alookup_ainsert, if_pos rfl]

theorem alookup_ainsert_self {α : Type} (l : List (String × α)) (k : String)
    (v : α) : alookup (ainsert l k v) k = some v := by
  rw [alookup_ainsert, if_pos rfl]

theorem appendKid_kids_self (t : PlannerTreeState) (n pid : String) :
    ∃ l, alookup (appendKid t n pid).children pid = some l ∧ n ∈ l := by
  unfold appendKid
  refine ⟨_, alookup_ainsert_self _ _ _, ?_⟩
  split
  · rename_i hmem; exact hmem
  · simp

theorem dropFromOld_kids_other {t : PlannerTreeState} {pid : String}
    (n : String) (hne : pget t n ≠ some pid) :
    alookup (dropFromOld t n).children pid = alookup t.children pid := by
  unfold dropFromOld
  split
  · rename_i op hop
    split
    · show alookup (ainsert t.children op _) pid = _
      rw [alookup_ainsert]
      have : op ≠ pid := by
        intro h
        subst h
        exact hne hop
      rw [if_neg this]
    · rfl
  · rfl

theorem linkChild_kids_self (t : PlannerTreeState) (n pid : String) :
    ∃ l, alookup (linkChild t n pid).children pid = some l ∧ n ∈ l := by
  obtain ⟨l, hl, hmem⟩ := appendKid_kids_self t n pid
  unfold linkChild
  split
  · exact ⟨l, hl, hmem⟩
  · rename_i hcond
    show ∃ l, alookup (dropFromOld (appendKid t n pid) n).children pid = some l ∧ n ∈ l
    rw [dropFromOld_kids_other n]
    · exact ⟨l, hl, hmem⟩
    · rw [pget_parent_congr (appendKid_parent t n pid)] at hcond ⊢
      exact hcond

theorem linkChild_noop {t : PlannerTreeState} {n pid : String}
    {kids : List String} (hkids : alookup t.children pid = some kids)
    (hmem : n ∈ kids) (hpar : pget t n = some pid) :
    linkChild t n pid = t := by
  have happ : appendKid t n pid = t := by
    unfold appendKid
    rw [hkids]
    show ({ t with children := (ainsert t.children pid
      (if n ∈ kids then kids else kids ++ [n])) } : PlannerTreeState) = t
    rw [if_pos hmem, ainsert_self t.children pid kids hkids]
  unfold linkChild
  rw [happ, if_pos hpar]

theorem ensure_idem_go (fuel : Nat) (t : PlannerTreeState) (n : String)
    (p r : Option String) :
    ensureGo (fuel + 1) (ensureGo (fuel + 1) t n p r) n p r =
      ensureGo (fuel + 1) t n p r := by
  by_cases hn : n = ""
  · subst hn; rw [ensureGo_empty, ensureGo_empty]
  set t1 := ensureGo (fuel + 1) t n p r with ht1
  have F1 : (alookup t1.parent n).isSome := by
    rw [ht1]; exact ensureGo_parent_self fuel t n p r hn
  have FRole : RoleOK t1 n r := by
    cases r with
    | none => trivial
    | some rr =>
      by_cases hrr : rr = ""
      · exact Or.inl hrr
      · exact Or.inr (by rw [ht1]; exact ensureGo_role_self fuel t n p rr hn hrr)
  rw [ensureGo_succ, if_neg hn]
  cases hpc : normParent n p with
  | none =>
    show registerNode t1 n none r = t1
    exact registerNode_noop F1 FRole
  | some pid =>
    show linkChild
      (if (alookup (registerNode t1 n (some pid) r).parent pid).isSome
       then registerNode t1 n (some pid) r
       else ensureGo fuel (registerNode t1 n (some pid) r) pid
         (normParent pid none) none) n pid = t1
    rw [registerNode_noop F1 FRole]
    have ht1eq : t1 = linkChild
        (if (alookup (registerNode t n (some pid) r).parent pid).isSome
         then registerNode t n (some pid) r
         else ensureGo fuel (registerNode t n (some pid) r) pid
           (normParent pid none) none) n pid := by
      rw [ht1, ensureGo_succ, if_neg hn]
      simp only [hpc]
    have F3 : pget t1 n = some pid := by
      rw [ht1eq]; exact pget_linkChild_self _ n pid
    obtain ⟨kids1, hk, hm⟩ : ∃ l, alookup t1.children pid = some l ∧ n ∈ l := by
      rw [ht1eq]; exact linkChild_kids_self _ n pid
    by_cases hpid : (alookup t1.parent pid).isSome
    · rw [if_pos hpid]
      exact linkChild_noop hk hm F3
    · rw [if_neg hpid]
      by_cases hpe : pid = ""
      · subst hpe
        rw [ensureGo_empty]
        exact linkChild_noop hk hm F3
      · cases fuel with
        | zero =>
          show linkChild t1 n pid = t1
          exact linkChild_noop hk hm F3
        | succ g =>
          exfalso
          apply hpid
          rw [ht1eq]
          apply linkChild_parent_mono
          split
          · rename_i hcond; exact hcond
          · exact ensureGo_parent_self g _ pid _ none hpe

end PlannerTreeState

theorem c3_ensure_idempotent (t : S2P.PlannerTreeState) (n : String)
    (p r : Option String) :
    (t.ensure n p r).ensure n p r = t.ensure n p r := by
  show PlannerTreeState.ensureGo (PlannerTreeState.fuelFor n p)
      (PlannerTreeState.ensureGo (PlannerTreeState.fuelFor n p) t n p r) n p r =
    PlannerTreeState.ensureGo (PlannerTreeState.fuelFor n p) t n p r
  rw [show PlannerTreeState.fuelFor n p =
    (n.length + (match p with | some q => q.length | none => 0) + 2) + 1 from rfl]
  exact PlannerTreeState.ensure_idem_go _ t n p r

theorem listRemove_subset {l : List String} {y x : String}
    (h : x ∈ listRemove l y) : x ∈ l := by
  induction l with
  | nil => simp [listRemove] at h
  | cons a as ih =>
    unfold listRemove at h
    by_cases ha : a = y
    · rw [if_pos ha] at h; exact List.mem_cons_of_mem a h
    · rw [if_neg ha] at h
      rcases List.mem_cons.mp h with h1 | h1
      · exact h1 ▸ List.mem_cons_self a as
      · exact List.mem_cons_of_mem a (ih h1)

theorem listRemove_sublist (l : List String) (y : String) :
    (listRemove l y).Sublist l := by
  induction l with
  | nil => simp [listRemove]
  | cons a as ih =>
    unfold listRemove
    by_cases ha : a = y
    · rw [if_pos ha]; exact List.sublist_cons_self a as
    · rw [if_neg ha]; exact List.Sublist.cons₂ a ih

theorem listRemove_nodup {l : List String} (h : l.Nodup) (y : String) :
    (listRemove l y).Nodup :=
  (listRemove_sublist l y).nodup h

theorem listRemove_not_mem {l : List String} (h : l.Nodup) (y : String) :
    y ∉ listRemove l y := by
  induction l with
  | nil => simp [listRemove]
  | cons a as ih =>
    unfold listRemove
    by_cases ha : a = y
    · rw [if_pos ha]
      subst ha
      exact (List.nodup_cons.mp h).1
    · rw [if_neg ha]
      intro hmem
      rcases List.mem_cons.mp hmem with h1 | h1
      · exact ha h1.symm
      · exact ih (List.nodup_cons.mp h).2 h1

theorem listRemove_mem_other {l : List String} {x y : String} (hxy : x ≠ y) :
    x ∈ listRemove l y ↔ x ∈ l := by
  induction l with
  | nil => simp [listRemove]
  | cons a as ih =>
    unfold listRemove
    by_cases ha : a = y
    · rw [if_pos ha]
      subst ha
      constructor
      · exact List.mem_cons_of_mem a
      · intro h
        rcases List.mem_cons.mp h with h1 | h1
        · exact absurd h1 hxy
        · exact h1
    · rw [if_neg ha]
      simp only [List.mem_cons, ih]

namespace PlannerTreeState

theorem pget_eq_some {t : PlannerTreeState} {x v : String} :
    pget t x = some v ↔ alookup t.parent x = some (some v) := by
  unfold pget
  cases h : alookup t.parent x with
  | none => simp
  | some w => cases w <;> simp

theorem init_treeInv : TreeInv init := by
  constructor
  · intro q x hx
    simp only [init, alookup] at hx
    by_cases hq : ROOT_ID = q
    · rw [if_pos hq] at hx; simp at hx
    · rw [if_neg hq] at hx; simp [alookup] at hx
  · intro q
    simp only [init, alookup]
    by_cases hq : ROOT_ID = q
    · rw [if_pos hq]; simp
    · rw [if_neg hq]; simp [alookup]
  · intro x ov hx hov
    simp only [init, alookup] at hx
    by_cases hp : ROOT_ID = x
    · exact hp.symm
    · rw [if_neg hp] at hx; simp [alookup] at hx
  · intro x v hx
    simp only [init, alookup] at hx
    by_cases hp : ROOT_ID = x
    · rw [if_pos hp] at hx; cases hx
    · rw [if_neg hp] at hx; simp [alookup] at hx
  · intro q
    simp only [init, alookup]
    by_cases hq : ROOT_ID = q
    · rw [if_pos hq]; simp
    · rw [if_neg hq]; simp [alookup]

theorem treeInv_of_eq {t t' : PlannerTreeState} (hp : t'.parent = t.parent)
    (hc : t'.children = t.children) (h : TreeInv t) : TreeInv t' := by
  constructor
  · intro q x hx
    rw [hc] at hx
    unfold pget
    rw [hp]
    exact h.childParent q x hx
  · intro q; rw [hc]; exact h.nodup q
  · intro x ov hx; rw [hp] at hx; exact h.rootNone x ov hx
  · intro x v hx; rw [hp] at hx; exact h.valNE x v hx
  · intro q; rw [hc]; exact h.rootNotKid q

theorem appendKid_kids_other {t : PlannerTreeState} {q pid : String}
    (h : q ≠ pid) (n : String) :
    alookup (appendKid t n pid).children q = alookup t.children q := by
  unfold appendKid
  show alookup (ainsert t.children pid _) q = _
  rw [alookup_ainsert, if_neg (Ne.symm h)]

theorem appendKid_kids_self_eq (t : PlannerTreeState) (n pid : String) :
    (alookup (appendKid t n pid).children pid).getD [] =
      (if n ∈ (alookup t.children pid).getD []
       then (alookup t.children pid).getD []
       else (alookup t.children pid).getD [] ++ [n]) := by
  unfold appendKid
  show (alookup (ainsert t.children pid _) pid).getD [] = _
  rw [alookup_ainsert_self]
  rfl

theorem appendKid_mem (t : PlannerTreeState) (n pid q x : String) :
    x ∈ (alookup (appendKid t n pid).children q).getD [] ↔
      (x ∈ (alookup t.children q).getD [] ∨ (x = n ∧ q = pid)) := by
  by_cases hq : q = pid
  · subst hq
    rw [appendKid_kids_self_eq]
    by_cases hmem : n ∈ (alookup t.children q).getD []
    · rw [if_pos hmem]
      constructor
      · exact fun h => Or.inl h
      · intro h
        rcases h with h | ⟨hx, _⟩
        · exact h
        · exact hx ▸ hmem
    · rw [if_neg hmem]
      simp [List.mem_append]
  · rw [appendKid_kids_other hq]
    simp [hq]

theorem appendKid_nodup (t : PlannerTreeState) (n pid q : String)
    (h : ∀ q', ((alookup t.children q').getD []).Nodup) :
    ((alookup (appendKid t n pid).children q).getD []).Nodup := by
  by_cases hq : q = pid
  · subst hq
    rw [appendKid_kids_self_eq]
    by_cases hmem : n ∈ (alookup t.children q).getD []
    · rw [if_pos hmem]; exact h q
    · rw [if_neg hmem]
      simp [List.nodup_append, h q, hmem]
  · rw [appendKid_kids_other hq]
    exact h q

theorem dropFromOld_eq_none {t : PlannerTreeState} {n : String}
    (hpg : pget t n = none) : dropFromOld t n = t := by
  unfold dropFromOld
  rw [hpg]

theorem dropFromOld_eq_hit {t : PlannerTreeState} {n op : String}
    (hpg : pget t n = some op)
    (hc : op ≠ "" ∧ n ∈ (alookup t.children op).getD []) :
    dropFromOld t n = { t with children := (ainsert t.children op
      (listRemove ((alookup t.children op).getD []) n)) } := by
  unfold dropFromOld
  rw [hpg]
  show (if op ≠ "" ∧ n ∈ (alookup t.children op).getD [] then
    { t with children := (ainsert t.children op
      (listRemove ((alookup t.children op).getD []) n)) } else t) = _
  rw [if_pos hc]

theorem dropFromOld_eq_miss {t : PlannerTreeState} {n op : String}
    (hpg : pget t n = some op)
    (hc : ¬(op ≠ "" ∧ n ∈ (alookup t.children op).getD [])) :
    dropFromOld t n = t := by
  unfold dropFromOld
  rw [hpg]
  show (if op ≠ "" ∧ n ∈ (alookup t.children op).getD [] then
    { t with children := (ainsert t.children op
      (listRemove ((alookup t.children op).getD []) n)) } else t) = _
  rw [if_neg hc]

theorem dropFromOld_children_sub {t : PlannerTreeState} {n q x : String}
    (h : x ∈ (alookup (dropFromOld t n).children q).getD []) :
    x ∈ (alookup t.children q).getD [] := by
  cases hpg : pget t n with
  | none => rw [dropFromOld_eq_none hpg] at h; exact h
  | some op =>
    by_cases hc : op ≠ "" ∧ n ∈ (alookup t.children op).getD []
    · rw [dropFromOld_eq_hit hpg hc] at h
      rw [show ({ t with children := (ainsert t.children op
          (listRemove ((alookup t.children op).getD []) n)) } :
          PlannerTreeState).children = ainsert t.children op
          (listRemove ((alookup t.children op).getD []) n) from rfl] at h
      rw [alookup_ainsert] at h
      by_cases hoq : op = q
      · rw [if_pos hoq] at h
        subst hoq
        exact listRemove_subset h
      · rw [if_neg hoq] at h
        exact h
    · rw [dropFromOld_eq_miss hpg hc] at h
      exact h

theorem dropFromOld_mem_other {x n : String} (hxn : x ≠ n)
    (t : PlannerTreeState) (q : String) :
    x ∈ (alookup (dropFromOld t n).children q).getD [] ↔
      x ∈ (alookup t.children q).getD [] := by
  cases hpg : pget t n with
  | none => rw [dropFromOld_eq_none hpg]
  | some op =>
    by_cases hc : op ≠ "" ∧ n ∈ (alookup t.children op).getD []
    · rw [dropFromOld_eq_hit hpg hc]
      show x ∈ (alookup (ainsert t.children op
        (listRemove ((alookup t.children op).getD []) n)) q).getD [] ↔ _
      rw [alookup_ainsert]
      by_cases hoq : op = q
      · rw [if_pos hoq]
        subst hoq
        show x ∈ listRemove ((alookup t.children op).getD []) n ↔ _
        exact listRemove_mem_other hxn
      · rw [if_neg hoq]
    · rw [dropFromOld_eq_miss hpg hc]

theorem dropFromOld_nodup (t : PlannerTreeState) (n q : String)
    (h : ∀ q', ((alookup t.children q').getD []).Nodup) :
    ((alookup (dropFromOld t n).children q).getD []).Nodup := by
  cases hpg : pget t n with
  | none => rw [dropFromOld_eq_none hpg]; exact h q
  | some op =>
    by_cases hc : op ≠ "" ∧ n ∈ (alookup t.children op).getD []
    · rw [dropFromOld_eq_hit hpg hc]
      show ((alookup (ainsert t.children op
        (listRemove ((alookup t.children op).getD []) n)) q).getD []).Nodup
      rw [alookup_ainsert]
      by_cases hoq : op = q
      · rw [if_pos hoq]
        exact listRemove_nodup (h op) n
      · rw [if_neg hoq]
        exact h q
    · rw [dropFromOld_eq_miss hpg hc]
      exact h q

theorem dropFromOld_self_not_mem (t : PlannerTreeState) {n op : String}
    (hnd : ((alookup t.children op).getD []).Nodup)
    (hpg : pget t n = some op) (hop : op ≠ "") :
    n ∉ (alookup (dropFromOld t n).children op).getD [] := by
  by_cases hc : op ≠ "" ∧ n ∈ (alookup t.children op).getD []
  · rw [dropFromOld_eq_hit hpg hc]
    show n ∉ (alookup (ainsert t.children op
      (listRemove ((alookup t.children op).getD []) n)) op).getD []
    rw [alookup_ainsert_self]
    exact listRemove_not_mem hnd n
  · rw [dropFromOld_eq_miss hpg hc]
    intro hmem
    exact hc ⟨hop, hmem⟩

theorem orRootStr_ne (o : Option String) : orRootStr o ≠ "" := by
  unfold orRootStr
  cases o with
  | none => decide
  | some s =>
    show (if s = "" then ROOT_ID else s) ≠ ""
    by_cases hs : s = ""
    · rw [if_pos hs]; decide
    · rw [if_neg hs]; exact hs

theorem normParent_none {n : String} {p : Option String}
    (h : normParent n p = none) : n = ROOT_ID := by
  unfold normParent at h
  by_cases hn : n = ROOT_ID
  · exact hn
  · rw [if_neg hn] at h
    cases p <;> simp at h

theorem normParent_some_ne {n pid : String} {p : Option String}
    (hp : ∀ s, p = some s → s ≠ "") (h : normParent n p = some pid) :
    pid ≠ "" := by
  unfold normParent at h
  by_cases hn : n = ROOT_ID
  · rw [if_pos hn] at h; cases h
  · rw [if_neg hn] at h
    cases p with
    | none =>
      have he : orRootStr (inferParentId n) = pid := by simpa using h
      rw [← he]
      exact orRootStr_ne _
    | some s =>
      have hs : s = pid := by simpa using h
      exact hs ▸ hp s rfl

theorem normParent_some_ne_root {n pid : String} {p : Option String}
    (h : normParent n p = some pid) : n ≠ ROOT_ID := by
  intro hn
  unfold normParent at h
  rw [if_pos hn] at h
  cases h

theorem registerNode_fresh_parent {t : PlannerTreeState} {n : String}
    (hp : ¬(alookup t.parent n).isSome) (pc r : Option String) :
    (registerNode t n pc r).parent = ainsert t.parent n pc := by
  unfold registerNode
  rw [if_neg hp]

theorem registerNode_fresh_children {t : PlannerTreeState} {n : String}
    (hp : ¬(alookup t.parent n).isSome) (pc r : Option String) :
    (registerNode t n pc r).children = asetd t.children n [] := by
  unfold registerNode
  rw [if_neg hp]

theorem registerNode_treeInv {t : PlannerTreeState} (hInv : TreeInv t)
    (n : String) (pc r : Option String)
    (hroot : pc = none → n = ROOT_ID)
    (hne : ∀ v, pc = some v → v ≠ "") :
    TreeInv (registerNode t n pc r) := by
  by_cases hp : (alookup t.parent n).isSome
  · have hpar : (registerNode t n pc r).parent = t.parent := by
      unfold registerNode; rw [if_pos hp]
    have hch : (registerNode t n pc r).children = t.children := by
      unfold registerNode; rw [if_pos hp]
    exact treeInv_of_eq hpar hch hInv
  · have hn_absent : alookup t.parent n = none := by
      cases hl : alookup t.parent n with
      | none => rfl
      | some v => rw [hl] at hp; simp at hp
    constructor
    · intro q x hx
      rw [registerNode_fresh_children hp, alookup_asetd] at hx
      have hx' : x ∈ (alookup t.children q).getD [] := by
        by_cases hck : (alookup t.children n).isSome
        · rw [if_pos hck] at hx; exact hx
        · rw [if_neg hck] at hx
          by_cases hnq : n = q
          · rw [if_pos hnq] at hx; simp at hx
          · rw [if_neg hnq] at hx; exact hx
      have hpx := hInv.childParent q x hx'
      have hxn : x ≠ n := by
        intro he
        subst he
        rw [pget_eq_some, hn_absent] at hpx
        cases hpx
      rw [pget_eq_some] at hpx ⊢
      rw [registerNode_fresh_parent hp, alookup_ainsert,
        if_neg (fun he => hxn he.symm)]
      exact hpx
    · intro q
      rw [registerNode_fresh_children hp, alookup_asetd]
      by_cases hck : (alookup t.children n).isSome
      · rw [if_pos hck]; exact hInv.nodup q
      · rw [if_neg hck]
        by_cases hnq : n = q
        · rw [if_pos hnq]; simp
        · rw [if_neg hnq]; exact hInv.nodup q
    · intro x ov hx hov
      subst hov
      rw [registerNode_fresh_parent hp, alookup_ainsert] at hx
      by_cases hnx : n = x
      · rw [if_pos hnx] at hx
        cases hx
        exact hnx ▸ hroot rfl
      · rw [if_neg hnx] at hx
        exact hInv.rootNone x none hx rfl
    · intro x v hx
      rw [registerNode_fresh_parent hp, alookup_ainsert] at hx
      by_cases hnx : n = x
      · rw [if_pos hnx] at hx
        cases hx
        exact hne v rfl
      · rw [if_neg hnx] at hx
        exact hInv.valNE x v hx
    · intro q
      rw [registerNode_fresh_children hp, alookup_asetd]
      by_cases hck : (alookup t.children n).isSome
      · rw [if_pos hck]; exact hInv.rootNotKid q
      · rw [if_neg hck]
        by_cases hnq : n = q
        · rw [if_pos hnq]; simp
        · rw [if_neg hnq]; exact hInv.rootNotKid q

theorem drop_append_self_mem {t : PlannerTreeState} (hInv : TreeInv t)
    {n pid q : String} (hg : pget t n ≠ some pid)
    (hmem : n ∈ (alookup (dropFromOld (appendKid t n pid) n).children q).getD []) :
    q = pid := by
  have hpgA : pget (appendKid t n pid) n = pget t n :=
    pget_parent_congr (appendKid_parent t n pid) n
  cases hpg : pget t n with
  | none =>
    rw [dropFromOld_eq_none (hpgA.trans hpg)] at hmem
    rw [appendKid_mem] at hmem
    rcases hmem with hmem | ⟨_, hq⟩
    · have hcp := hInv.childParent q n hmem
      rw [hpg] at hcp
      cases hcp
    · exact hq
  | some op =>
    have hopne : op ≠ "" := hInv.valNE n op (pget_eq_some.mp hpg)
    have hop_pid : op ≠ pid := fun he => hg (he ▸ hpg)
    by_cases hcA : op ≠ "" ∧ n ∈ (alookup (appendKid t n pid).children op).getD []
    · rw [dropFromOld_eq_hit (hpgA.trans hpg) hcA] at hmem
      have hmem' : n ∈ (alookup (ainsert (appendKid t n pid).children op
          (listRemove ((alookup (appendKid t n pid).children op).getD []) n))
          q).getD [] := hmem
      rw [alookup_ainsert] at hmem'
      by_cases hoq : op = q
      · rw [if_pos hoq] at hmem'
        subst hoq
        have hAop : alookup (appendKid t n pid).children op =
            alookup t.children op := appendKid_kids_other hop_pid n
        rw [hAop] at hmem'
        exact absurd hmem' (listRemove_not_mem (hInv.nodup op) n)
      · rw [if_neg hoq] at hmem'
        rw [appendKid_mem] at hmem'
        rcases hmem' with hmem' | ⟨_, hq⟩
        · have hcp := hInv.childParent q n hmem'
          rw [hpg] at hcp
          cases hcp
          exact absurd rfl hoq
        · exact hq
    · rw [dropFromOld_eq_miss (hpgA.trans hpg) hcA] at hmem
      rw [appendKid_mem] at hmem
      rcases hmem with hmem | ⟨_, hq⟩
      · have hcp := hInv.childParent q n hmem
        rw [hpg] at hcp
        cases hcp
        exfalso
        apply hcA
        refine ⟨hopne, ?_⟩
        rw [appendKid_mem]
        exact Or.inl hmem
      · exact hq

theorem linkChild_treeInv {t : PlannerTreeState} (hInv : TreeInv t)
    {n pid : String} (hpid : pid ≠ "") (hnR : n ≠ ROOT_ID) :
    TreeInv (linkChild t n pid) := by
  unfold linkChild
  by_cases hg : pget (appendKid t n pid) n = some pid
  · rw [if_pos hg]
    have hg' : pget t n = some pid := by
      rw [pget_parent_congr (appendKid_parent t n pid)] at hg
      exact hg
    constructor
    · intro q x hx
      rw [appendKid_mem] at hx
      have hpx : pget t x = some q := by
        rcases hx with hx | ⟨hxe, hqe⟩
        · exact hInv.childParent q x hx
        · subst hxe; subst hqe; exact hg'
      rw [pget_parent_congr (appendKid_parent t n pid)]
      exact hpx
    · intro q
      exact appendKid_nodup t n pid q hInv.nodup
    · intro x ov hx hov
      rw [appendKid_parent] at hx
      exact hInv.rootNone x ov hx hov
    · intro x v hx
      rw [appendKid_parent] at hx
      exact hInv.valNE x v hx
    · intro q hmem
      rw [appendKid_mem] at hmem
      rcases hmem with hmem | ⟨hre, _⟩
      · exact hInv.rootNotKid q hmem
      · exact hnR hre.symm
  · rw [if_neg hg]
    have hg' : pget t n ≠ some pid := by
      rw [pget_parent_congr (appendKid_parent t n pid)] at hg
      exact hg
    have hDpar : (dropFromOld (appendKid t n pid) n).parent = t.parent := by
      rw [dropFromOld_parent, appendKid_parent]
    constructor
    · intro q x hx
      have hx' : x ∈ (alookup (dropFromOld (appendKid t n pid) n).children
          q).getD [] := hx
      rw [pget_eq_some]
      show alookup (ainsert (dropFromOld (appendKid t n pid) n).parent n
        (some pid)) x = some (some q)
      rw [hDpar, alookup_ainsert]
      by_cases hxn : x = n
      · rw [if_pos hxn.symm]
        subst hxn
        have hq : q = pid := drop_append_self_mem hInv hg' hx'
        rw [hq]
      · rw [if_neg (fun he => hxn he.symm)]
        have hxA : x ∈ (alookup (appendKid t n pid).children q).getD [] :=
          (dropFromOld_mem_other hxn _ q).mp hx'
        rw [appendKid_mem] at hxA
        rcases hxA with hxA | ⟨hxe, _⟩
        · exact pget_eq_some.mp (hInv.childParent q x hxA)
        · exact absurd hxe hxn
    · intro q
      show ((alookup (dropFromOld (appendKid t n pid) n).children q).getD
        []).Nodup
      exact dropFromOld_nodup _ n q (fun q' => appendKid_nodup t n pid q' hInv.nodup)
    · intro x ov hx hov
      subst hov
      have hx' : alookup (ainsert (dropFromOld (appendKid t n pid) n).parent n
          (some pid)) x = some none := hx
      rw [hDpar, alookup_ainsert] at hx'
      by_cases hnx : n = x
      · rw [if_pos hnx] at hx'
        cases hx'
      · rw [if_neg hnx] at hx'
        exact hInv.rootNone x none hx' rfl
    · intro x v hx
      have hx' : alookup (ainsert (dropFromOld (appendKid t n pid) n).parent n
          (some pid)) x = some (some v) := hx
      rw [hDpar, alookup_ainsert] at hx'
      by_cases hnx : n = x
      · rw [if_pos hnx] at hx'
        cases hx'
        exact hpid
      · rw [if_neg hnx] at hx'
        exact hInv.valNE x v hx'
    · intro q hmem
      have hmem' : ROOT_ID ∈ (alookup (dropFromOld (appendKid t n pid)
          n).children q).getD [] := hmem
      have hA := dropFromOld_children_sub hmem'
      rw [appendKid_mem] at hA
      rcases hA with hA | ⟨hre, _⟩
      · exact hInv.rootNotKid q hA
      · exact hnR hre.symm

theorem ensureGo_treeInv : ∀ (fuel : Nat) (t : PlannerTreeState) (n : String)
    (p r : Option String), TreeInv t → (∀ s, p = some s → s ≠ "") →
    TreeInv (ensureGo fuel t n p r) := by
  intro fuel
  induction fuel with
  | zero => intro t n p r h _; simpa [ensureGo] using h
  | succ fuel ih =>
    intro t n p r hInv hp
    rw [ensureGo_succ]
    by_cases hn : n = ""
    · rw [if_pos hn]; exact hInv
    rw [if_neg hn]
    cases hpc : normParent n p with
    | none =>
      exact registerNode_treeInv hInv n none r (fun _ => normParent_none hpc)
        (fun v hv => nomatch hv)
    | some pid =>
      have hpid : pid ≠ "" := normParent_some_ne hp hpc
      have hnR : n ≠ ROOT_ID := normParent_some_ne_root hpc
      have hreg : TreeInv (registerNode t n (some pid) r) :=
        registerNode_treeInv hInv n (some pid) r (fun h => nomatch h)
          (fun v hv => by cases hv; exact hpid)
      apply linkChild_treeInv _ hpid hnR
      by_cases hk : (alookup (registerNode t n (some pid) r).parent pid).isSome
      · rw [if_pos hk]; exact hreg
      · rw [if_neg hk]
        exact ih _ _ _ _ hreg
          (fun s hs => normParent_some_ne (fun v hv => Option.noConfusion hv) hs)

theorem registerNode_parent_pres {t : PlannerTreeState} {x : String}
    {v : Option String} (h : alookup t.parent x = some v) (n : String)
    (pc r : Option String) :
    alookup (registerNode t n pc r).parent x = some v := by
  by_cases hp : (alookup t.parent n).isSome
  · have hpar : (registerNode t n pc r).parent = t.parent := by
      unfold registerNode; rw [if_pos hp]
    rw [hpar]
    exact h
  · rw [registerNode_fresh_parent hp, alookup_ainsert]
    have hnx : n ≠ x := by
      intro he
      subst he
      rw [h] at hp
      simp at hp
    rw [if_neg hnx]
    exact h

theorem linkChild_parent_pres {t : PlannerTreeState} {x n : String}
    (hxn : x ≠ n) {v : Option String} (h : alookup t.parent x = some v)
    (pid : String) :
    alookup (linkChild t n pid).parent x = some v := by
  rcases linkChild_parent_eq t n pid with heq | heq
  · rw [heq]; exact h
  · rw [heq, alookup_ainsert, if_neg (fun he => hxn he.symm)]
    exact h

theorem ensureGo_parent_pres : ∀ (fuel : Nat) (t : PlannerTreeState)
    (m : String) (p r : Option String) (x : String) (v : Option String),
    alookup t.parent x = some v → x ≠ m →
    alookup (ensureGo fuel t m p r).parent x = some v := by
  intro fuel
  induction fuel with
  | zero => intro t m p r x v h _; simpa [ensureGo] using h
  | succ fuel ih =>
    intro t m p r x v h hxm
    rw [ensureGo_succ]
    by_cases hm : m = ""
    · rw [if_pos hm]; exact h
    rw [if_neg hm]
    cases hpc : normParent m p with
    | none => exact registerNode_parent_pres h m none r
    | some pid =>
      apply linkChild_parent_pres hxm
      have hreg : alookup (registerNode t m (some pid) r).parent x = some v :=
        registerNode_parent_pres h m (some pid) r
      by_cases hk : (alookup (registerNode t m (some pid) r).parent pid).isSome
      · rw [if_pos hk]; exact hreg
      · rw [if_neg hk]
        apply ih _ _ _ _ _ _ hreg
        intro he
        subst he
        rw [hreg] at hk
        simp at hk

theorem registerNode_mem_iff (t : PlannerTreeState) (n : String)
    (pc r : Option String) (q x : String) :
    x ∈ (alookup (registerNode t n pc r).children q).getD [] ↔
      x ∈ (alookup t.children q).getD [] := by
  by_cases hp : (alookup t.parent n).isSome
  · have hch : (registerNode t n pc r).children = t.children := by
      unfold registerNode; rw [if_pos hp]
    rw [hch]
  · rw [registerNode_fresh_children hp, alookup_asetd]
    by_cases hck : (alookup t.children n).isSome
    · rw [if_pos hck]
    · rw [if_neg hck]
      by_cases hnq : n = q
      · rw [if_pos hnq]
        subst hnq
        have hnone : alookup t.children n = none := by
          cases hl : alookup t.children n with
          | none => rfl
          | some l => rw [hl] at hck; simp at hck
        rw [hnone]
        simp
      · rw [if_neg hnq]

theorem linkChild_mem_other {x n : String} (hxn : x ≠ n)
    (t : PlannerTreeState) (pid q : String) :
    x ∈ (alookup (linkChild t n pid).children q).getD [] ↔
      x ∈ (alookup t.children q).getD [] := by
  unfold linkChild
  by_cases hg : pget (appendKid t n pid) n = some pid
  · rw [if_pos hg]
    rw [appendKid_mem]
    simp [hxn]
  · rw [if_neg hg]
    show x ∈ (alookup (dropFromOld (appendKid t n pid) n).children q).getD []
      ↔ _
    rw [dropFromOld_mem_other hxn, appendKid_mem]
    simp [hxn]

theorem ensureGo_mem_stable : ∀ (fuel : Nat) (t : PlannerTreeState)
    (m : String) (p r : Option String) (x q : String),
    (alookup t.parent x).isSome → ¬(alookup t.parent m).isSome →
    (x ∈ (alookup (ensureGo fuel t m p r).children q).getD [] ↔
      x ∈ (alookup t.children q).getD []) := by
  intro fuel
  induction fuel with
  | zero => intro t m p r x q _ _; exact Iff.rfl
  | succ fuel ih =>
    intro t m p r x q hx hm
    have hxm : x ≠ m := by
      intro he
      subst he
      exact hm hx
    rw [ensureGo_succ]
    by_cases hme : m = ""
    · rw [if_pos hme]
    rw [if_neg hme]
    cases hpc : normParent m p with
    | none => exact registerNode_mem_iff t m none r q x
    | some pid =>
      rw [linkChild_mem_other hxm]
      have hxreg : (alookup (registerNode t m (some pid) r).parent x).isSome :=
        registerNode_parent_mono hx m (some pid) r
      by_cases hk : (alookup (registerNode t m (some pid) r).parent pid).isSome
      · rw [if_pos hk]
        exact registerNode_mem_iff t m (some pid) r q x
      · rw [if_neg hk]
        rw [ih _ _ _ _ _ _ hxreg hk]
        exact registerNode_mem_iff t m (some pid) r q x

theorem ensure_treeInv {t : PlannerTreeState} (hInv : TreeInv t) (n : String)
    (p r : Option String) (hp : ∀ s, p = some s → s ≠ "") :
    TreeInv (t.ensure n p r) :=
  ensureGo_treeInv _ t n p r hInv hp

theorem updateStatus_treeInv {t : PlannerTreeState} (hInv : TreeInv t)
    (n st : String) (p r : Option String) (hp : ∀ s, p = some s → s ≠ "") :
    TreeInv (t.updateStatus n st p r) :=
  @treeInv_of_eq (t.ensure n p r) _ rfl rfl (ensure_treeInv hInv n p r hp)

theorem ensure_some_eq (t : PlannerTreeState) {n : String} (pid : String)
    (hn : n ≠ "") (hnR : n ≠ ROOT_ID) (r : Option String) :
    t.ensure n (some pid) r =
      linkChild
        (if (alookup (registerNode t n (some pid) r).parent pid).isSome
         then registerNode t n (some pid) r
         else ensureGo (n.length + pid.length + 2)
           (registerNode t n (some pid) r) pid (normParent pid none) none)
        n pid := by
  have hnorm : normParent n (some pid) = some pid := by
    unfold normParent
    rw [if_neg hnR]
  unfold ensure
  rw [show fuelFor n (some pid) = (n.length + pid.length + 2) + 1 from rfl]
  rw [ensureGo_succ, if_neg hn, hnorm]

theorem ensure_reparent_frame {t : PlannerTreeState} (hInv : TreeInv t)
    {n pid oldp : String} (r : Option String) (hn : n ≠ "")
    (hnR : n ≠ ROOT_ID) (hpid : pid ≠ "")
    (hpg : pget t n = some oldp) (hne : oldp ≠ pid) :
    n ∉ (alookup ((t.ensure n (some pid) r)).children oldp).getD [] ∧
    n ∈ (alookup ((t.ensure n (some pid) r)).children pid).getD [] ∧
    ∀ q, q ≠ oldp → q ≠ pid →
      (n ∈ (alookup ((t.ensure n (some pid) r)).children q).getD [] ↔
        n ∈ (alookup t.children q).getD []) := by
  have hpar : alookup t.parent n = some (some oldp) := pget_eq_some.mp hpg
  have hparS : (alookup t.parent n).isSome := by rw [hpar]; rfl
  have hop : oldp ≠ "" := hInv.valNE n oldp hpar
  rw [ensure_some_eq t pid hn hnR r]
  set t2 := (if (alookup (registerNode t n (some pid) r).parent pid).isSome
    then registerNode t n (some pid) r
    else ensureGo (n.length + pid.length + 2) (registerNode t n (some pid) r)
      pid (normParent pid none) none) with ht2
  have hregpar : alookup (registerNode t n (some pid) r).parent n =
      some (some oldp) := registerNode_parent_pres hpar n (some pid) r
  have hregparS : (alookup (registerNode t n (some pid) r).parent n).isSome :=
    by rw [hregpar]; rfl
  have hregch : (registerNode t n (some pid) r).children = t.children := by
    unfold registerNode
    rw [if_pos hparS]
  have hpar2 : alookup t2.parent n = some (some oldp) := by
    rw [ht2]
    by_cases hk : (alookup (registerNode t n (some pid) r).parent pid).isSome
    · rw [if_pos hk]; exact hregpar
    · rw [if_neg hk]
      apply ensureGo_parent_pres _ _ _ _ _ _ _ hregpar
      intro he
      subst he
      rw [hregpar] at hk
      simp at hk
  have hmem2 : ∀ q, (n ∈ (alookup t2.children q).getD [] ↔
      n ∈ (alookup t.children q).getD []) := by
    intro q
    rw [ht2]
    by_cases hk : (alookup (registerNode t n (some pid) r).parent pid).isSome
    · rw [if_pos hk, hregch]
    · rw [if_neg hk]
      rw [ensureGo_mem_stable _ _ _ _ _ _ _ hregparS hk, hregch]
  have hreginv : TreeInv (registerNode t n (some pid) r) :=
    registerNode_treeInv hInv n (some pid) r (fun h => Option.noConfusion h)
      (fun v hv => by cases hv; exact hpid)
  have hInv2 : TreeInv t2 := by
    rw [ht2]
    by_cases hk : (alookup (registerNode t n (some pid) r).parent pid).isSome
    · rw [if_pos hk]; exact hreginv
    · rw [if_neg hk]
      exact ensureGo_treeInv _ _ _ _ _ hreginv
        (fun s hs => normParent_some_ne (fun v hv => Option.noConfusion hv) hs)
  have hgA : pget (appendKid t2 n pid) n = some oldp := by
    rw [pget_parent_congr (appendKid_parent t2 n pid)]
    exact pget_eq_some.mpr hpar2
  have hguard : ¬(pget (appendKid t2 n pid) n = some pid) := by
    intro hcon
    rw [hgA] at hcon
    exact hne (Option.some.inj hcon)
  have hLC : linkChild t2 n pid = { dropFromOld (appendKid t2 n pid) n with
      parent := (ainsert (dropFromOld (appendKid t2 n pid) n).parent n
        (some pid)) } := by
    unfold linkChild
    rw [if_neg hguard]
  refine ⟨?_, ?_, ?_⟩
  · rw [hLC]
    show n ∉ (alookup (dropFromOld (appendKid t2 n pid) n).children oldp).getD []
    have hnd : ((alookup (appendKid t2 n pid).children oldp).getD []).Nodup := by
      rw [appendKid_kids_other hne]
      exact hInv2.nodup oldp
    exact dropFromOld_self_not_mem _ hnd hgA hop
  · obtain ⟨l, hl, hm⟩ := linkChild_kids_self t2 n pid
    rw [hl]
    exact hm
  · intro q hqo hqp
    rw [hLC]
    show n ∈ (alookup (dropFromOld (appendKid t2 n pid) n).children q).getD []
      ↔ _
    have hdq : pget (appendKid t2 n pid) n ≠ some q := by
      intro hcon
      rw [hgA] at hcon
      exact hqo (Option.some.inj hcon).symm
    rw [dropFromOld_kids_other n hdq, appendKid_kids_other hqp n]
    exact hmem2 q

end PlannerTreeState

theorem runT_treeInv : ∀ (ops : List TOp) (t : PlannerTreeState),
    PlannerTreeState.TreeInv t →
    (∀ op ∈ ops, ∀ s, op.parentArg = some s → s ≠ "") →
    PlannerTreeState.TreeInv (runT t ops) := by
  intro ops
  induction ops with
  | nil => intro t h _; exact h
  | cons op ops ih =>
    intro t h hops
    have h1 : PlannerTreeState.TreeInv (TOp.apply t op) := by
      cases op with
      | ens n p r =>
        exact PlannerTreeState.ensure_treeInv h n p r
          (hops _ (List.mem_cons_self _ _))
      | upd n s p r =>
        exact PlannerTreeState.updateStatus_treeInv h n s p r
          (hops _ (List.mem_cons_self _ _))
    exact ih _ h1 (fun op' hop' => hops op' (List.mem_cons_of_mem _ hop'))

theorem c6_counterexample :
    "x" ∈ (alookup (((PlannerTreeState.init.ensure "x" (some "") none).ensure
        "x" (some "a") none)).children "").getD [] ∧
    "x" ∈ (alookup (((PlannerTreeState.init.ensure "x" (some "") none).ensure
        "x" (some "a") none)).children "a").getD [] ∧
    ("" : String) ≠ "a" := by
  refine ⟨?_, ?_, by decide⟩ <;> decide

theorem c6_children_uniqueness_amended (ops : List TOp)
    (hops : ∀ op ∈ ops, ∀ s, op.parentArg = some s → s ≠ "") :
    (∀ q x, x ∈ (alookup (runT PlannerTreeState.init ops).children q).getD []
        → (runT PlannerTreeState.init ops).pget x = some q) ∧
    (∀ p q x,
        x ∈ (alookup (runT PlannerTreeState.init ops).children p).getD [] →
        x ∈ (alookup (runT PlannerTreeState.init ops).children q).getD [] →
        p = q) ∧
    (∀ n pid oldp r, n ≠ "" → n ≠ PlannerTreeState.ROOT_ID → pid ≠ "" →
      (runT PlannerTreeState.init ops).pget n = some oldp → oldp ≠ pid →
      (n ∉ (alookup ((runT PlannerTreeState.init ops).ensure n (some pid)
          r).children oldp).getD [] ∧
       n ∈ (alookup ((runT PlannerTreeState.init ops).ensure n (some pid)
          r).children pid).getD [] ∧
       ∀ q, q ≠ oldp → q ≠ pid →
         (n ∈ (alookup ((runT PlannerTreeState.init ops).ensure n (some pid)
             r).children q).getD [] ↔
           n ∈ (alookup (runT PlannerTreeState.init ops).children
             q).getD []))) := by
  have hInv : PlannerTreeState.TreeInv (runT PlannerTreeState.init ops) :=
    runT_treeInv ops PlannerTreeState.init PlannerTreeState.init_treeInv hops
  refine ⟨hInv.childParent, ?_, ?_⟩
  · intro p q x hp hq
    have h1 := hInv.childParent p x hp
    have h2 := hInv.childParent q x hq
    rw [h1] at h2
    exact Option.some.inj h2
  · intro n pid oldp r hn hnR hpid hpg hne
    exact PlannerTreeState.ensure_reparent_frame hInv r hn hnR hpid hpg hne

theorem c6_children_uniqueness_amended_witness :
    (∀ op ∈ [TOp.ens "x" (some "p") none], ∀ s,
        op.parentArg = some s → s ≠ "") ∧
    (runT PlannerTreeState.init [TOp.ens "x" (some "p") none]).pget "x" =
      some "p" := by
  have hops : ∀ op ∈ [TOp.ens "x" (some "p") none], ∀ s,
      op.parentArg = some s → s ≠ "" := by
    intro op hop s hs
    rw [List.mem_singleton] at hop
    subst hop
    have he : "p" = s := by simpa [TOp.parentArg] using hs
    subst he
    decide
  exact ⟨hops, (c6_children_uniqueness_amended
    [TOp.ens "x" (some "p") none] hops).1 "p" "x" (by decide)⟩

theorem map_congr_mem {α β : Type} {l : List α} {f g : α → β}
    (h : ∀ a ∈ l, f a = g a) : l.map f = l.map g := by
  induction l with
  | nil => rfl
  | cons a l ih =>
    simp only [List.map_cons, h a (List.mem_cons_self a l),
      ih (fun b hb => h b (List.mem_cons_of_mem a hb))]

theorem alookup_ainsert_cases {α : Type} {M : List (String × α)} {n k : String}
    {v w : α} (h : alookup (ainsert M n v) k = some w) :
    (k = n ∧ w = v) ∨ (k ≠ n ∧ alookup M k = some w) := by
  rw [alookup_ainsert] at h
  by_cases hnk : n = k
  · rw [if_pos hnk] at h
    cases h
    exact Or.inl ⟨hnk.symm, rfl⟩
  · rw [if_neg hnk] at h
    exact Or.inr ⟨fun he => hnk he.symm, h⟩

theorem alookup_ainsert_fresh_pres {α : Type} {M : List (String × α)}
    {n k : String} {v w : α} (hn : alookup M n = none)
    (h : alookup M k = some w) : alookup (ainsert M n v) k = some w := by
  rw [alookup_ainsert]
  by_cases hnk : n = k
  · subst hnk
    rw [h] at hn
    cases hn
  · rw [if_neg hnk]
    exact h

theorem alookup_ainsert_isSome {α : Type} {M : List (String × α)}
    {n k : String} {v : α} (h : (alookup M k).isSome) :
    (alookup (ainsert M n v) k).isSome := by
  rw [alookup_ainsert]
  by_cases hnk : n = k
  · rw [if_pos hnk]; rfl
  · rw [if_neg hnk]; exact h

namespace PlannerTreeState

theorem childRanked_live {t : PlannerTreeState} {rank : String → Nat}
    (h : ChildRankedL t rank) : ∀ p k, k ∈ kidsOf t p → rank k < rank p := by
  intro p k hk
  unfold kidsOf at hk
  cases hl : alookup t.children p with
  | none => rw [hl] at hk; simp at hk
  | some l =>
    rw [hl] at hk
    exact h (p, l) (alookup_mem hl) k hk

theorem uniqueKid_live {t : PlannerTreeState} (h : UniqueKidL t) :
    ∀ p q k, k ∈ kidsOf t p → k ∈ kidsOf t q → p = q := by
  intro p q k hp hq
  unfold kidsOf at hp hq
  cases hlp : alookup t.children p with
  | none => rw [hlp] at hp; simp at hp
  | some lp =>
    cases hlq : alookup t.children q with
    | none => rw [hlq] at hq; simp at hq
    | some lq =>
      rw [hlp] at hp
      rw [hlq] at hq
      exact h (p, lp) (alookup_mem hlp) (q, lq) (alookup_mem hlq) k hp hq

theorem rootNotKid_live {t : PlannerTreeState} (h : RootNotKidL t) :
    ∀ p, ROOT_ID ∉ kidsOf t p := by
  intro p hk
  unfold kidsOf at hk
  cases hl : alookup t.children p with
  | none => rw [hl] at hk; simp at hk
  | some l =>
    rw [hl] at hk
    exact h (p, l) (alookup_mem hl) hk

theorem clamp01_nonneg (p : ℚ) : 0 ≤ clamp01 p := le_max_left 0 _

theorem clamp01_le_one (p : ℚ) : clamp01 p ≤ 1 :=
  max_le (by norm_num) (min_le_left 1 p)

theorem clamp01_eq_self {p : ℚ} (h0 : 0 ≤ p) (h1 : p ≤ 1) : clamp01 p = p := by
  unfold clamp01
  rw [min_eq_right h1, max_eq_right h0]

theorem MInv_append {t : PlannerTreeState} {M : List (String × ℚ)} {n : String}
    {v : ℚ} (hm : MInv t M) (hn : alookup M n = none)
    (hg : MGood t (ainsert M n v) n v) : MInv t (ainsert M n v) := by
  intro m w h
  rcases alookup_ainsert_cases h with ⟨he, hv⟩ | ⟨hne, hold⟩
  · subst he
    subst hv
    exact hg
  · obtain ⟨h0, h1, hform⟩ := hm m w hold
    refine ⟨h0, h1, ?_⟩
    by_cases hterm : statusOf t m ∈ terminalStatuses
    · rw [if_pos hterm] at hform ⊢
      exact hform
    · rw [if_neg hterm] at hform ⊢
      by_cases hke : (kidsOf t m).isEmpty
      · rw [if_pos hke] at hform ⊢
        exact hform
      · rw [if_neg hke] at hform ⊢
        obtain ⟨hrec, hval⟩ := hform
        have hkn : ∀ k ∈ kidsOf t m, k ≠ n := by
          intro k hk he
          subst he
          have hs := hrec k hk
          rw [hn] at hs
          simp at hs
        refine ⟨fun k hk => alookup_ainsert_isSome (hrec k hk), ?_⟩
        have hmapeq : (kidsOf t m).map
            (fun k => (alookup (ainsert M n v) k).getD 0) =
            (kidsOf t m).map (fun k => (alookup M k).getD 0) :=
          map_congr_mem (fun k hk => by
            rw [alookup_ainsert, if_neg (fun he => hkn k hk he.symm)])
        rw [hmapeq]
        exact hval

theorem calc_main (t : PlannerTreeState) (rank : String → Nat)
    (hr : ∀ p k, k ∈ kidsOf t p → rank k < rank p) :
    ∀ (fuel : Nat) (memo : List (String × ℚ)) (n : String),
      MInv t memo → rank n < fuel →
      MInv t (calcGo t fuel memo n).1 ∧
      (∀ k w, alookup memo k = some w →
        alookup (calcGo t fuel memo n).1 k = some w) ∧
      alookup (calcGo t fuel memo n).1 n = some (calcGo t fuel memo n).2 ∧
      (∀ k w, alookup (calcGo t fuel memo n).1 k = some w →
        alookup memo k = some w ∨ rank k ≤ rank n) ∧
      (0 ≤ (calcGo t fuel memo n).2 ∧ (calcGo t fuel memo n).2 ≤ 1) ∧
      (∀ k w, alookup (calcGo t fuel memo n).1 k = some w →
        alookup memo k = some w ∨ k = n ∨
        ∃ m, (alookup (calcGo t fuel memo n).1 m).isSome ∧ k ∈ kidsOf t m) := by
  intro fuel
  induction fuel with
  | zero => intro memo n _ hf; exact absurd hf (Nat.not_lt_zero _)
  | succ fuel ih =>
    have ihL : ∀ (ks : List String) (memo : List (String × ℚ)),
        MInv t memo → (∀ k ∈ ks, rank k < fuel) →
        MInv t (calcList t fuel memo ks).1 ∧
        (∀ k w, alookup memo k = some w →
          alookup (calcList t fuel memo ks).1 k = some w) ∧
        ((calcList t fuel memo ks).2 =
          ks.map (fun k => (alookup (calcList t fuel memo ks).1 k).getD 0)) ∧
        (∀ k ∈ ks, (alookup (calcList t fuel memo ks).1 k).isSome) ∧
        (∀ x ∈ (calcList t fuel memo ks).2, 0 ≤ x ∧ x ≤ 1) ∧
        (∀ k w, alookup (calcList t fuel memo ks).1 k = some w →
          alookup memo k = some w ∨ ∃ j ∈ ks, rank k ≤ rank j) ∧
        (∀ k w, alookup (calcList t fuel memo ks).1 k = some w →
          alookup memo k = some w ∨ k ∈ ks ∨
          ∃ m, (alookup (calcList t fuel memo ks).1 m).isSome ∧
            k ∈ kidsOf t m) := by
      intro ks
      induction ks with
      | nil =>
        intro memo hm _
        refine ⟨hm, fun k w h => h, rfl, ?_, ?_, fun k w h => Or.inl h,
          fun k w h => Or.inl h⟩
        · intro k hk; simp at hk
        · intro x hx; simp [calcList] at hx
      | cons k ks ihk =>
        intro memo hm hks
        obtain ⟨A1, A2, A3, A4, A5, A6⟩ :=
          ih memo k hm (hks k (List.mem_cons_self k ks))
        obtain ⟨B1, B2, B3, B4, B5, B6, B7⟩ :=
          ihk (calcGo t fuel memo k).1 A1
            (fun j hj => hks j (List.mem_cons_of_mem k hj))
        have hcons1 : (calcList t fuel memo (k :: ks)).1 =
            (calcList t fuel (calcGo t fuel memo k).1 ks).1 := rfl
        have hcons2 : (calcList t fuel memo (k :: ks)).2 =
            (calcGo t fuel memo k).2 ::
              (calcList t fuel (calcGo t fuel memo k).1 ks).2 := rfl
        have hsome : alookup (calcList t fuel (calcGo t fuel memo k).1 ks).1 k
            = some (calcGo t fuel memo k).2 := B2 _ _ A3
        rw [hcons1, hcons2]
        refine ⟨B1, fun j w h => B2 j w (A2 j w h), ?_, ?_, ?_, ?_, ?_⟩
        · simp only [List.map_cons]
          rw [hsome, Option.getD_some]
          exact congrArg _ B3
        · intro j hj
          rcases List.mem_cons.mp hj with he | hj'
          · subst he
            rw [hsome]
            rfl
          · exact B4 j hj'
        · intro x hx
          rcases List.mem_cons.mp hx with he | hx'
          · subst he
            exact A5
          · exact B5 x hx'
        · intro j w h
          rcases B6 j w h with h' | ⟨i, hi, hri⟩
          · rcases A4 j w h' with h'' | hrj
            · exact Or.inl h''
            · exact Or.inr ⟨k, List.mem_cons_self k ks, hrj⟩
          · exact Or.inr ⟨i, List.mem_cons_of_mem k hi, hri⟩
        · intro j w h
          rcases B7 j w h with h' | hjs | ⟨m, hm', hjm⟩
          · rcases A6 j w h' with h'' | he | ⟨m, hm'', hjm⟩
            · exact Or.inl h''
            · exact Or.inr (Or.inl (by rw [he]; exact List.mem_cons_self k ks))
            · obtain ⟨vm, hvm⟩ := Option.isSome_iff_exists.mp hm''
              refine Or.inr (Or.inr ⟨m, ?_, hjm⟩)
              rw [B2 m vm hvm]
              rfl
          · exact Or.inr (Or.inl (List.mem_cons_of_mem k hjs))
          · exact Or.inr (Or.inr ⟨m, hm', hjm⟩)
    intro memo n hm hf
    cases hmn : alookup memo n with
    | some p =>
      have hres : calcGo t (fuel + 1) memo n = (memo, p) := by
        simp only [calcGo, hmn]
      rw [hres]
      obtain ⟨h0, h1, _⟩ := hm n p hmn
      exact ⟨hm, fun k w h => h, hmn, fun k w h => Or.inl h, ⟨h0, h1⟩,
        fun k w h => Or.inl h⟩
    | none =>
      by_cases hterm : statusOf t n ∈ terminalStatuses
      · have hres : calcGo t (fuel + 1) memo n =
            (ainsert memo n (clamp01 1), clamp01 1) := by
          rw [calcGo_succ_fresh t fuel memo n hmn, if_pos hterm]
        rw [hres]
        have hg : MGood t (ainsert memo n (clamp01 1)) n (clamp01 1) := by
          refine ⟨clamp01_nonneg 1, clamp01_le_one 1, ?_⟩
          rw [if_pos hterm]
          exact clamp01_one
        refine ⟨MInv_append hm hmn hg,
          fun k w h => alookup_ainsert_fresh_pres hmn h,
          alookup_ainsert_self _ _ _, ?_,
          ⟨clamp01_nonneg 1, clamp01_le_one 1⟩, ?_⟩
        · intro k w h
          rcases alookup_ainsert_cases h with ⟨he, _⟩ | ⟨_, hold⟩
          · exact Or.inr (le_of_eq (congrArg rank he))
          · exact Or.inl hold
        · intro k w h
          rcases alookup_ainsert_cases h with ⟨he, _⟩ | ⟨_, hold⟩
          · exact Or.inr (Or.inl he)
          · exact Or.inl hold
      · by_cases hke : (kidsOf t n).isEmpty
        · have hres : calcGo t (fuel + 1) memo n =
              (ainsert memo n (clamp01 (statusProgress (statusOf t n))),
                clamp01 (statusProgress (statusOf t n))) := by
            rw [calcGo_succ_fresh t fuel memo n hmn, if_neg hterm, if_pos hke]
          rw [hres]
          have hg : MGood t
              (ainsert memo n (clamp01 (statusProgress (statusOf t n)))) n
              (clamp01 (statusProgress (statusOf t n))) := by
            refine ⟨clamp01_nonneg _, clamp01_le_one _, ?_⟩
            rw [if_neg hterm, if_pos hke]
          refine ⟨MInv_append hm hmn hg,
            fun k w h => alookup_ainsert_fresh_pres hmn h,
            alookup_ainsert_self _ _ _, ?_,
            ⟨clamp01_nonneg _, clamp01_le_one _⟩, ?_⟩
          · intro k w h
            rcases alookup_ainsert_cases h with ⟨he, _⟩ | ⟨_, hold⟩
            · exact Or.inr (le_of_eq (congrArg rank he))
            · exact Or.inl hold
          · intro k w h
            rcases alookup_ainsert_cases h with ⟨he, _⟩ | ⟨_, hold⟩
            · exact Or.inr (Or.inl he)
            · exact Or.inl hold
        · have hkley : ∀ k ∈ kidsOf t n, rank k < fuel := fun k hk =>
            lt_of_lt_of_le (hr n k hk) (Nat.lt_succ_iff.mp hf)
          obtain ⟨L1, L2, L3, L4, L5, L6, L7⟩ := ihL (kidsOf t n) memo hm hkley
          have hres : calcGo t (fuel + 1) memo n =
              (ainsert (calcList t fuel memo (kidsOf t n)).1 n
                (clamp01 ((calcList t fuel memo (kidsOf t n)).2.sum /
                  (max (calcList t fuel memo (kidsOf t n)).2.length 1 : ℚ))),
               clamp01 ((calcList t fuel memo (kidsOf t n)).2.sum /
                  (max (calcList t fuel memo (kidsOf t n)).2.length 1 : ℚ))) := by
            rw [calcGo_succ_fresh t fuel memo n hmn, if_neg hterm, if_neg hke]
          have hkne : kidsOf t n ≠ [] := by
            intro he
            rw [he] at hke
            simp at hke
          have hlenpos : 0 < (kidsOf t n).length := List.length_pos.mpr hkne
          have hlen : (calcList t fuel memo (kidsOf t n)).2.length =
              (kidsOf t n).length := by
            rw [L3, List.length_map]
          have hRn : alookup (calcList t fuel memo (kidsOf t n)).1 n = none := by
            cases hx : alookup (calcList t fuel memo (kidsOf t n)).1 n with
            | none => rfl
            | some w =>
              rcases L6 n w hx with h' | ⟨j, hj, hr'⟩
              · rw [hmn] at h'; cases h'
              · exact absurd (lt_of_le_of_lt hr' (hr n j hj)) (lt_irrefl _)
          have hs0 : 0 ≤ (calcList t fuel memo (kidsOf t n)).2.sum :=
            List.sum_nonneg (fun x hx => (L5 x hx).1)
          have hs1 : (calcList t fuel memo (kidsOf t n)).2.sum ≤
              ((calcList t fuel memo (kidsOf t n)).2.length : ℚ) := by
            have hsl := List.sum_le_card_nsmul
              (calcList t fuel memo (kidsOf t n)).2 1 (fun x hx => (L5 x hx).2)
            simpa [nsmul_eq_mul] using hsl
          have h1len : (1 : ℚ) ≤ ((calcList t fuel memo (kidsOf t n)).2.length : ℚ) := by
            have : 1 ≤ (calcList t fuel memo (kidsOf t n)).2.length := by
              rw [hlen]
              omega
            exact_mod_cast this
          have hlq : (0 : ℚ) < ((calcList t fuel memo (kidsOf t n)).2.length : ℚ) :=
            lt_of_lt_of_le (by norm_num) h1len
          have hmax : (max (calcList t fuel memo (kidsOf t n)).2.length 1 : ℚ) =
              ((calcList t fuel memo (kidsOf t n)).2.length : ℚ) :=
            max_eq_left h1len
          have hVp : clamp01 ((calcList t fuel memo (kidsOf t n)).2.sum /
              (max (calcList t fuel memo (kidsOf t n)).2.length 1 : ℚ)) =
              (calcList t fuel memo (kidsOf t n)).2.sum /
                (((kidsOf t n).length : ℚ)) := by
            rw [hmax,
              clamp01_eq_self (div_nonneg hs0 (le_of_lt hlq))
                ((div_le_one hlq).mpr hs1),
              hlen]
          have hnkids : n ∉ kidsOf t n := fun h => absurd (hr n n h) (lt_irrefl _)
          have hkid_final : ∀ k ∈ kidsOf t n,
              alookup (ainsert (calcList t fuel memo (kidsOf t n)).1 n
                (clamp01 ((calcList t fuel memo (kidsOf t n)).2.sum /
                  (max (calcList t fuel memo (kidsOf t n)).2.length 1 : ℚ)))) k =
              alookup (calcList t fuel memo (kidsOf t n)).1 k := by
            intro k hk
            rw [alookup_ainsert]
            apply if_neg
            intro he
            subst he
            exact hnkids hk
          have hg : MGood t
              (ainsert (calcList t fuel memo (kidsOf t n)).1 n
                (clamp01 ((calcList t fuel memo (kidsOf t n)).2.sum /
                  (max (calcList t fuel memo (kidsOf t n)).2.length 1 : ℚ)))) n
              (clamp01 ((calcList t fuel memo (kidsOf t n)).2.sum /
                (max (calcList t fuel memo (kidsOf t n)).2.length 1 : ℚ))) := by
            refine ⟨clamp01_nonneg _, clamp01_le_one _, ?_⟩
            rw [if_neg hterm, if_neg hke]
            refine ⟨fun k hk => by rw [hkid_final k hk]; exact L4 k hk, ?_⟩
            have hmap2 : (kidsOf t n).map
                (fun k => (alookup (ainsert (calcList t fuel memo (kidsOf t n)).1 n
                  (clamp01 ((calcList t fuel memo (kidsOf t n)).2.sum /
                    (max (calcList t fuel memo (kidsOf t n)).2.length 1 : ℚ)))) k).getD 0) =
                (kidsOf t n).map
                  (fun k => (alookup (calcList t fuel memo (kidsOf t n)).1 k).getD 0) :=
              map_congr_mem (fun k hk => by rw [hkid_final k hk])
            rw [hmap2, ← L3, hVp]
          rw [hres]
          refine ⟨MInv_append L1 hRn hg,
            fun k w h => alookup_ainsert_fresh_pres hRn (L2 k w h),
            alookup_ainsert_self _ _ _, ?_,
            ⟨clamp01_nonneg _, clamp01_le_one _⟩, ?_⟩
          · intro k w h
            rcases alookup_ainsert_cases h with ⟨he, _⟩ | ⟨_, hold⟩
            · exact Or.inr (le_of_eq (congrArg rank he))
            · rcases L6 k w hold with h' | ⟨j, hj, hr'⟩
              · exact Or.inl h'
              · exact Or.inr (le_of_lt (lt_of_le_of_lt hr' (hr n j hj)))
          · intro k w h
            rcases alookup_ainsert_cases h with ⟨he, _⟩ | ⟨_, hold⟩
            · exact Or.inr (Or.inl he)
            · rcases L7 k w hold with h' | hks' | ⟨m, hm', hkm⟩
              · exact Or.inl h'
              · refine Or.inr (Or.inr ⟨n, ?_, hks'⟩)
                rw [alookup_ainsert_self]
                rfl
              · exact Or.inr (Or.inr ⟨m, alookup_ainsert_isSome hm', hkm⟩)

theorem progressMap_MInv (t : PlannerTreeState) (rank : String → Nat)
    (hr : ChildRankedL t rank) (hroot : rank ROOT_ID < calcFuel t) :
    MInv t (progressMap t) :=
  (calc_main t rank (childRanked_live hr) (calcFuel t) [] ROOT_ID
    (fun n v h => by simp [alookup] at h) hroot).1

theorem progressMap_provenance (t : PlannerTreeState) (rank : String → Nat)
    (hr : ChildRankedL t rank) (hroot : rank ROOT_ID < calcFuel t) :
    ∀ k w, alookup (progressMap t) k = some w → k = ROOT_ID ∨
      ∃ m, (alookup (progressMap t) m).isSome ∧ k ∈ kidsOf t m := by
  intro k w h
  have h6 := (calc_main t rank (childRanked_live hr) (calcFuel t) [] ROOT_ID
    (fun n v hh => by simp [alookup] at hh) hroot).2.2.2.2.2
  rcases h6 k w h with h' | he | hex
  · simp [alookup] at h'
  · exact Or.inl he
  · exact Or.inr hex

theorem insertByKey_length (key : String → Nat) (x : String) :
    ∀ l : List String, (insertByKey key x l).length = l.length + 1 := by
  intro l
  induction l with
  | nil => rfl
  | cons y ys ih =>
    unfold insertByKey
    by_cases h : key x ≤ key y
    · rw [if_pos h]; rfl
    · rw [if_neg h]
      simp only [List.length_cons, ih]

theorem sortByKey_length (key : String → Nat) :
    ∀ l : List String, (sortByKey key l).length = l.length := by
  intro l
  induction l with
  | nil => rfl
  | cons x xs ih =>
    unfold sortByKey
    rw [insertByKey_length, ih]
    rfl

end PlannerTreeState

theorem c2_children_mean (t : S2P.PlannerTreeState) (rank : String → Nat)
    (hr : PlannerTreeState.ChildRankedL t rank)
    (hu : PlannerTreeState.UniqueKidL t)
    (hrk : PlannerTreeState.RootNotKidL t)
    (hroot : rank PlannerTreeState.ROOT_ID < PlannerTreeState.calcFuel t)
    (n : String) (v : PlannerTreeState.NodeView)
    (hn : alookup t.snapshot.nodes n = some v)
    (hterm : v.status ∉ PlannerTreeState.terminalStatuses)
    (hkids : v.children ≠ []) :
    v.progress = ((PlannerTreeState.kidsOf t n).map
        (fun k => (alookup (PlannerTreeState.progressMap t) k).getD 0)).sum /
      ((PlannerTreeState.kidsOf t n).length : ℚ) ∧
    t.snapshot = t.snapshot := by
  refine ⟨?_, rfl⟩
  rw [PlannerTreeState.snapshot_nodes_lookup] at hn
  cases hd : alookup (PlannerTreeState.depthMap t) n with
  | none => rw [hd] at hn; simp at hn
  | some d =>
    rw [hd, Option.map_some'] at hn
    cases hn
    have hterm' : PlannerTreeState.statusOf t n ∉
        PlannerTreeState.terminalStatuses := hterm
    have hkne : PlannerTreeState.kidsOf t n ≠ [] := by
      intro he
      apply hkids
      show PlannerTreeState.sortByKey _ ((alookup t.children n).getD []) = []
      rw [show (alookup t.children n).getD [] =
        PlannerTreeState.kidsOf t n from rfl, he]
      rfl
    have hkemp : ¬(PlannerTreeState.kidsOf t n).isEmpty :=
      fun hh => hkne (List.isEmpty_iff.mp hh)
    show (alookup (PlannerTreeState.progressMap t) n).getD 0 = _
    cases hv : alookup (PlannerTreeState.progressMap t) n with
    | some w =>
      obtain ⟨h0, h1, hform⟩ :=
        PlannerTreeState.progressMap_MInv t rank hr hroot n w hv
      rw [if_neg hterm', if_neg hkemp] at hform
      rw [Option.getD_some]
      exact hform.2
    | none =>
      have hzero : ∀ k ∈ PlannerTreeState.kidsOf t n,
          (alookup (PlannerTreeState.progressMap t) k).getD 0 = 0 := by
        intro k hk
        cases hkv : alookup (PlannerTreeState.progressMap t) k with
        | none => rfl
        | some w =>
          exfalso
          rcases PlannerTreeState.progressMap_provenance t rank hr hroot k w
            hkv with he | ⟨m, hm', hkm⟩
          · subst he
            exact PlannerTreeState.rootNotKid_live hrk n hk
          · have hmn : m = n :=
              PlannerTreeState.uniqueKid_live hu m n k hkm hk
            subst hmn
            rw [hv] at hm'
            simp at hm'
      have hsz : ((PlannerTreeState.kidsOf t n).map
          (fun k => (alookup (PlannerTreeState.progressMap t) k).getD 0)).sum
          = 0 := by
        apply List.sum_eq_zero
        intro x hx
        obtain ⟨k, hk, he⟩ := List.mem_map.mp hx
        rw [← he]
        exact hzero k hk
      rw [hsz, zero_div]
      rfl

theorem c2_children_mean_witness :
    ∃ v : PlannerTreeState.NodeView,
      alookup (PlannerTreeState.init.ensure "t1" none none).snapshot.nodes
        PlannerTreeState.ROOT_ID = some v ∧
      v.progress = ((PlannerTreeState.kidsOf
          (PlannerTreeState.init.ensure "t1" none none)
          PlannerTreeState.ROOT_ID).map
        (fun k => (alookup (PlannerTreeState.progressMap
          (PlannerTreeState.init.ensure "t1" none none)) k).getD 0)).sum /
        ((PlannerTreeState.kidsOf (PlannerTreeState.init.ensure "t1" none none)
          PlannerTreeState.ROOT_ID).length : ℚ) := by
  refine ⟨_, rfl, ?_⟩
  exact (c2_children_mean (PlannerTreeState.init.ensure "t1" none none)
    (fun s => if s = PlannerTreeState.ROOT_ID then 1 else 0)
    (by decide) (by decide) (by decide) (by decide)
    PlannerTreeState.ROOT_ID _ rfl (by decide) (by decide)).1

end S2P
